import Mathlib

/-!
Verification development for the CUDA-sanitizer happens-before core
(`torch/cuda/_sanitizer.py`): a per-stream vector-clock table with event
snapshots (`StreamSynchronizations`), a per-buffer access log
(`_TensorsAccessed`), and the kernel-launch analyzer (`EventHandler`).

Python dictionaries are embedded as association lists with Python `dict`
semantics: lookup returns the binding of the key, assignment updates an
existing binding in place or appends a fresh one, deletion removes the
binding, and iteration follows insertion order.  Sequence numbers are
integers so that the `-1` "no known event" default is native.  The
in-place mutation of the Python objects is embedded as explicit state
passing; stack summaries are opaque and carry no information.
-/

namespace Csan

abbrev DataPtr := Nat
abbrev StreamId := Nat
abbrev EventId := Nat
abbrev SeqNum := Int

/-- Python `d[k]` / `d.get(k)`: the value bound to `k`, if any. -/
def dlookup {V : Type} : List (Nat × V) → Nat → Option V
  | [], _ => none
  | (k, v) :: rest, key => if key = k then some v else dlookup rest key

/-- Python `d[k] = v`: update the binding in place, or append a fresh one. -/
def dset {V : Type} : List (Nat × V) → Nat → V → List (Nat × V)
  | [], key, v => [(key, v)]
  | (k, w) :: rest, key, v =>
      if key = k then (k, v) :: rest else (k, w) :: dset rest key v

/-- Python `del d[k]`: remove the binding of `k`. -/
def ddel {V : Type} : List (Nat × V) → Nat → List (Nat × V)
  | [], _ => []
  | (k, w) :: rest, key => if key = k then rest else (k, w) :: ddel rest key

/-- Update the value bound to `k` in place, when present. -/
def dmodify {V : Type} : List (Nat × V) → Nat → (V → V) → List (Nat × V)
  | [], _, _ => []
  | (k, w) :: rest, key, f =>
      if key = k then (k, f w) :: rest else (k, w) :: dmodify rest key f

/-- A vector clock: a sparse map from stream id to seq-num, default `-1`. -/
abbrev VectorClock := List (StreamId × SeqNum)

/-- `vc.get(t, -1)`: the clock's value at coordinate `t`, default `-1`. -/
def vcGet (vc : VectorClock) (t : StreamId) : SeqNum :=
  (dlookup vc t).getD (-1)

/-- `StreamSynchronizations`: per-stream current clocks and per-event
recorded snapshots (`current_sync_states` / `recorded_sync_states`). -/
structure StreamSynchronizations where
  current_sync_states : List (StreamId × VectorClock)
  recorded_sync_states : List (EventId × VectorClock)
deriving DecidableEq, Repr

/-- The table of a fresh `StreamSynchronizations()`. -/
def StreamSynchronizations.init : StreamSynchronizations := ⟨[], []⟩

/-- `current[s]` with a missing row read as the empty clock. -/
def rowD (st : StreamSynchronizations) (s : StreamId) : VectorClock :=
  (dlookup st.current_sync_states s).getD []

/-- `create_stream`: insert an empty clock; a duplicate creation is ignored. -/
def StreamSynchronizations.create_stream (st : StreamSynchronizations)
    (stream : StreamId) : StreamSynchronizations :=
  if (dlookup st.current_sync_states stream).isSome then st
  else { st with current_sync_states := dset st.current_sync_states stream [] }

/-- `_ensure_stream_exists`: back-fill `create_stream` when absent. -/
def StreamSynchronizations.ensure_stream_exists (st : StreamSynchronizations)
    (stream : StreamId) : StreamSynchronizations :=
  if (dlookup st.current_sync_states stream).isSome then st
  else st.create_stream stream

/-- `_ensure_event_does_not_exist`: the Python guard calls `delete_event`,
whose own existence guard is then a no-op, so the net effect is deletion
of the binding when present. -/
def StreamSynchronizations.ensure_event_does_not_exist
    (st : StreamSynchronizations) (event : EventId) : StreamSynchronizations :=
  if (dlookup st.recorded_sync_states event).isSome then
    { st with recorded_sync_states := ddel st.recorded_sync_states event }
  else st

/-- `create_event`: drop any duplicate, then bind `event` to `{}`. -/
def StreamSynchronizations.create_event (st : StreamSynchronizations)
    (event : EventId) : StreamSynchronizations :=
  let st1 := st.ensure_event_does_not_exist event
  { st1 with recorded_sync_states := dset st1.recorded_sync_states event [] }

/-- `_ensure_event_exists`: the Python guard calls `create_event`, whose
inner duplicate guard is then a no-op, so the net effect is binding
`event` to `{}` when absent. -/
def StreamSynchronizations.ensure_event_exists (st : StreamSynchronizations)
    (event : EventId) : StreamSynchronizations :=
  if (dlookup st.recorded_sync_states event).isSome then st
  else { st with recorded_sync_states := dset st.recorded_sync_states event [] }

/-- `delete_event`: back-fill when absent, then delete the binding. -/
def StreamSynchronizations.delete_event (st : StreamSynchronizations)
    (event : EventId) : StreamSynchronizations :=
  let st1 := st.ensure_event_exists event
  { st1 with recorded_sync_states := ddel st1.recorded_sync_states event }

/-- `update_seq_num`: `current[stream][stream] = seq_num`. -/
def StreamSynchronizations.update_seq_num (st : StreamSynchronizations)
    (stream : StreamId) (seq_num : SeqNum) : StreamSynchronizations :=
  let st1 := st.ensure_stream_exists stream
  let row := dset ((dlookup st1.current_sync_states stream).getD []) stream seq_num
  { st1 with current_sync_states := dset st1.current_sync_states stream row }

/-- `record_state`: `recorded[event] = current[stream].copy()`. -/
def StreamSynchronizations.record_state (st : StreamSynchronizations)
    (event : EventId) (stream : StreamId) : StreamSynchronizations :=
  let st1 := st.ensure_event_exists event
  let st2 := st1.ensure_stream_exists stream
  let snap := (dlookup st2.current_sync_states stream).getD []
  { st2 with recorded_sync_states := dset st2.recorded_sync_states event snap }

/-- One iteration of the `state_wait_for_event` loop:
`row[t] = max(row.get(t, -1), n)` for a snapshot entry `(t, n)`. -/
def waitUpdate (row : VectorClock) (tn : StreamId × SeqNum) : VectorClock :=
  dset row tn.1 (max (vcGet row tn.1) tn.2)

/-- `state_wait_for_event`: for each `(t, n)` in `recorded[event]`,
`current[stream][t] = max(current[stream].get(t, -1), n)`.  The Python
loop mutates the row of `stream` in place and touches no other row, so
it is embedded as a fold on that row followed by a single store. -/
def StreamSynchronizations.state_wait_for_event (st : StreamSynchronizations)
    (stream : StreamId) (event : EventId) : StreamSynchronizations :=
  let st1 := st.ensure_event_exists event
  let st2 := st1.ensure_stream_exists stream
  let snap := (dlookup st2.recorded_sync_states event).getD []
  let row := snap.foldl waitUpdate ((dlookup st2.current_sync_states stream).getD [])
  { st2 with current_sync_states := dset st2.current_sync_states stream row }

/-- `is_ordered_after`: back-fill both streams, then decide
`seq_num <= current[current_stream].get(other_stream, -1)`.  Returns the
boolean together with the (possibly back-filled) table. -/
def StreamSynchronizations.is_ordered_after (st : StreamSynchronizations)
    (current_stream : StreamId) (seq_num : SeqNum) (other_stream : StreamId) :
    Bool × StreamSynchronizations :=
  let st1 := st.ensure_stream_exists current_stream
  let st2 := st1.ensure_stream_exists other_stream
  (decide (seq_num ≤ vcGet ((dlookup st2.current_sync_states current_stream).getD [])
    other_stream), st2)

/-- `AccessType.READ` / `AccessType.WRITE`. -/
inductive AccessType where
  | READ : AccessType
  | WRITE : AccessType
deriving DecidableEq, Repr

/-- The captured `traceback.StackSummary` is opaque to the core; only its
presence is modelled. -/
abbrev StackSummary := Unit

/-- `Access`: one read or write by a kernel (kind, seq-num, stream,
operator schema, argument names, captured stack). -/
structure Access where
  type : AccessType
  seq_num : SeqNum
  stream : StreamId
  operator : String
  names : List String
  stack_trace : StackSummary
deriving DecidableEq, Repr

/-- `TensorInfo`: allocation stack, reads since the last write, and the
last write. -/
structure TensorInfo where
  allocation_stack_trace : Option StackSummary
  reads : List Access
  write : Option Access
deriving DecidableEq, Repr

/-- `_TensorsAccessed`: the per-buffer access log. -/
structure _TensorsAccessed where
  accesses : List (DataPtr × TensorInfo)
deriving DecidableEq, Repr

/-- The log of a fresh `_TensorsAccessed()`. -/
def _TensorsAccessed.init : _TensorsAccessed := ⟨[]⟩

/-- `create_tensor`: bind the buffer to an empty `TensorInfo`. -/
def _TensorsAccessed.create_tensor (ta : _TensorsAccessed) (data_ptr : DataPtr)
    (stack_trace : Option StackSummary) : _TensorsAccessed :=
  ⟨dset ta.accesses data_ptr ⟨stack_trace, [], none⟩⟩

/-- `ensure_tensor_exists`: back-fill an allocation without a stack. -/
def _TensorsAccessed.ensure_tensor_exists (ta : _TensorsAccessed)
    (data_ptr : DataPtr) : _TensorsAccessed :=
  if (dlookup ta.accesses data_ptr).isSome then ta
  else ta.create_tensor data_ptr none

/-- `delete_tensor`: drop the buffer's binding. -/
def _TensorsAccessed.delete_tensor (ta : _TensorsAccessed)
    (data_ptr : DataPtr) : _TensorsAccessed :=
  ⟨ddel ta.accesses data_ptr⟩

/-- `ensure_tensor_does_not_exist`: back-fill a missing deallocation. -/
def _TensorsAccessed.ensure_tensor_does_not_exist (ta : _TensorsAccessed)
    (data_ptr : DataPtr) : _TensorsAccessed :=
  if (dlookup ta.accesses data_ptr).isSome then ta.delete_tensor data_ptr
  else ta

/-- `get_reads`: the reads-since-last-write list of the buffer. -/
def _TensorsAccessed.get_reads (ta : _TensorsAccessed)
    (data_ptr : DataPtr) : List Access :=
  ((dlookup ta.accesses data_ptr).map TensorInfo.reads).getD []

/-- `were_there_reads_since_last_write`: the reads list is non-empty. -/
def _TensorsAccessed.were_there_reads_since_last_write (ta : _TensorsAccessed)
    (data_ptr : DataPtr) : Bool :=
  !(ta.get_reads data_ptr).isEmpty

/-- `get_write`: the optional last writer of the buffer. -/
def _TensorsAccessed.get_write (ta : _TensorsAccessed)
    (data_ptr : DataPtr) : Option Access :=
  (dlookup ta.accesses data_ptr).bind TensorInfo.write

/-- `get_allocation_stack_trace`. -/
def _TensorsAccessed.get_allocation_stack_trace (ta : _TensorsAccessed)
    (data_ptr : DataPtr) : Option StackSummary :=
  (dlookup ta.accesses data_ptr).bind TensorInfo.allocation_stack_trace

/-- `add_read`: append the access to the buffer's reads list. -/
def _TensorsAccessed.add_read (ta : _TensorsAccessed) (data_ptr : DataPtr)
    (access : Access) : _TensorsAccessed :=
  ⟨dmodify ta.accesses data_ptr (fun i => { i with reads := i.reads ++ [access] })⟩

/-- `set_write`: install the access as last writer and clear the reads list. -/
def _TensorsAccessed.set_write (ta : _TensorsAccessed) (data_ptr : DataPtr)
    (access : Access) : _TensorsAccessed :=
  ⟨dmodify ta.accesses data_ptr (fun i => { i with write := some access, reads := [] })⟩

/-- `UnsynchronizedAccessError`: the race report. -/
structure UnsynchronizedAccessError where
  data_ptr : DataPtr
  allocation_stack_trace : Option StackSummary
  current_access : Access
  previous_access : Access
deriving DecidableEq, Repr

/-- `EventHandler`: the access log, the sync table and the seq-num counter. -/
structure EventHandler where
  tensors_accessed : _TensorsAccessed
  syncs : StreamSynchronizations
  seq_num : SeqNum
deriving DecidableEq, Repr

/-- The state of a fresh `EventHandler()`. -/
def EventHandler.init : EventHandler :=
  ⟨_TensorsAccessed.init, StreamSynchronizations.init, 0⟩

/-- The `check_conflict` closure of `_handle_kernel_launch`: no previous
access means no conflict; otherwise query `is_ordered_after` (which may
back-fill streams) and report when it answers false. -/
def check_conflict (syncs : StreamSynchronizations) (ta : _TensorsAccessed)
    (data_ptr : DataPtr) (current_access : Access)
    (previous_access : Option Access) :
    StreamSynchronizations × Option UnsynchronizedAccessError :=
  match previous_access with
  | none => (syncs, none)
  | some prev =>
      let r := syncs.is_ordered_after current_access.stream prev.seq_num prev.stream
      if r.1 then (r.2, none)
      else (r.2, some ⟨data_ptr, ta.get_allocation_stack_trace data_ptr,
        current_access, prev⟩)

/-- Intermediate state of one `_handle_kernel_launch` run: the error list
accumulated so far, the access log and the sync table. -/
structure LaunchFold where
  errs : List UnsynchronizedAccessError
  ta : _TensorsAccessed
  syncs : StreamSynchronizations
deriving DecidableEq, Repr

/-- One iteration of the read-only loop of `_handle_kernel_launch`. -/
def roStep (stream : StreamId) (seq : SeqNum) (operator : String)
    (tensor_names : List (DataPtr × List String)) (acc : LaunchFold)
    (data_ptr : DataPtr) : LaunchFold :=
  let ta := acc.ta.ensure_tensor_exists data_ptr
  let cur : Access := ⟨AccessType.READ, seq, stream, operator,
    (dlookup tensor_names data_ptr).getD [], ()⟩
  let r := check_conflict acc.syncs ta data_ptr cur (ta.get_write data_ptr)
  ⟨acc.errs ++ r.2.toList, ta.add_read data_ptr cur, r.1⟩

/-- One iteration of the read-write loop of `_handle_kernel_launch`. -/
def rwStep (stream : StreamId) (seq : SeqNum) (operator : String)
    (tensor_names : List (DataPtr × List String)) (acc : LaunchFold)
    (data_ptr : DataPtr) : LaunchFold :=
  let ta := acc.ta.ensure_tensor_exists data_ptr
  let cur : Access := ⟨AccessType.WRITE, seq, stream, operator,
    (dlookup tensor_names data_ptr).getD [], ()⟩
  let r :=
    if ta.were_there_reads_since_last_write data_ptr then
      (ta.get_reads data_ptr).foldl (fun sc prev =>
        let r1 := check_conflict sc.1 ta data_ptr cur (some prev)
        (r1.1, sc.2 ++ r1.2.toList))
        (acc.syncs, ([] : List UnsynchronizedAccessError))
    else
      let r1 := check_conflict acc.syncs ta data_ptr cur (ta.get_write data_ptr)
      (r1.1, r1.2.toList)
  ⟨acc.errs ++ r.2, ta.set_write data_ptr cur, r.1⟩

/-- `_handle_kernel_launch`: bump the counter, publish it on the stream's
self-clock, run the read-only loop and then the read-write loop, and
return the accumulated reports together with the new state. -/
def EventHandler._handle_kernel_launch (h : EventHandler) (stream : StreamId)
    (read_only : List DataPtr) (read_write : List DataPtr) (operator : String)
    (tensor_names : List (DataPtr × List String)) :
    List UnsynchronizedAccessError × EventHandler :=
  let seq := h.seq_num + 1
  let syncs := h.syncs.update_seq_num stream seq
  let acc1 := read_only.foldl (roStep stream seq operator tensor_names)
    ⟨[], h.tensors_accessed, syncs⟩
  let acc2 := read_write.foldl (rwStep stream seq operator tensor_names) acc1
  (acc2.errs, ⟨acc2.ta, acc2.syncs, seq⟩)

/-- `_handle_event_creation`. -/
def EventHandler._handle_event_creation (h : EventHandler)
    (event : EventId) : EventHandler :=
  { h with syncs := h.syncs.create_event event }

/-- `_handle_event_deletion`. -/
def EventHandler._handle_event_deletion (h : EventHandler)
    (event : EventId) : EventHandler :=
  { h with syncs := h.syncs.delete_event event }

/-- `_handle_event_record`. -/
def EventHandler._handle_event_record (h : EventHandler) (event : EventId)
    (stream : StreamId) : EventHandler :=
  { h with syncs := h.syncs.record_state event stream }

/-- `_handle_event_wait`. -/
def EventHandler._handle_event_wait (h : EventHandler) (event : EventId)
    (stream : StreamId) : EventHandler :=
  { h with syncs := h.syncs.state_wait_for_event stream event }

/-- `_handle_memory_allocation`: defensive duplicate drop, then create
with the captured allocation stack. -/
def EventHandler._handle_memory_allocation (h : EventHandler)
    (data_ptr : DataPtr) : EventHandler :=
  let ta := (h.tensors_accessed.ensure_tensor_does_not_exist data_ptr).create_tensor data_ptr (some ())
  { h with tensors_accessed := ta }

/-- `_handle_memory_deallocation`: defensive back-fill, then drop. -/
def EventHandler._handle_memory_deallocation (h : EventHandler)
    (data_ptr : DataPtr) : EventHandler :=
  let ta := (h.tensors_accessed.ensure_tensor_exists data_ptr).delete_tensor data_ptr
  { h with tensors_accessed := ta }

/-- `_handle_stream_creation`. -/
def EventHandler._handle_stream_creation (h : EventHandler)
    (stream : StreamId) : EventHandler :=
  { h with syncs := h.syncs.create_stream stream }

/-- One event of the normalized trace consumed by the core. -/
inductive TraceEvent where
  | event_creation (event : EventId)
  | event_deletion (event : EventId)
  | event_record (event : EventId) (stream : StreamId)
  | event_wait (event : EventId) (stream : StreamId)
  | memory_allocation (data_ptr : DataPtr)
  | memory_deallocation (data_ptr : DataPtr)
  | stream_creation (stream : StreamId)
  | kernel_launch (stream : StreamId) (read_only : List DataPtr)
      (read_write : List DataPtr) (operator : String)
      (tensor_names : List (DataPtr × List String))
deriving DecidableEq, Repr

/-- Dispatch one trace event to its handler; only a kernel launch
produces reports. -/
def runEvent (h : EventHandler) :
    TraceEvent → List UnsynchronizedAccessError × EventHandler
  | .event_creation e => ([], h._handle_event_creation e)
  | .event_deletion e => ([], h._handle_event_deletion e)
  | .event_record e s => ([], h._handle_event_record e s)
  | .event_wait e s => ([], h._handle_event_wait e s)
  | .memory_allocation p => ([], h._handle_memory_allocation p)
  | .memory_deallocation p => ([], h._handle_memory_deallocation p)
  | .stream_creation s => ([], h._handle_stream_creation s)
  | .kernel_launch s ro rw op names => h._handle_kernel_launch s ro rw op names

/-- Replay a trace, collecting each event's report list in order. -/
def runTrace (h : EventHandler) :
    List TraceEvent → List (List UnsynchronizedAccessError) × EventHandler
  | [] => ([], h)
  | ev :: rest =>
      let r := runEvent h ev
      let rr := runTrace r.2 rest
      (r.1 :: rr.1, rr.2)

/-- Spec §4.3 "Conflict check", applied to a list of previous accesses
under a fixed sync table: report exactly those previous accesses that are
not ordered before the current one, in list order. -/
def spec_conflict_reports (syncs : StreamSynchronizations)
    (ta : _TensorsAccessed) (data_ptr : DataPtr) (cur : Access)
    (prevs : List Access) : List UnsynchronizedAccessError :=
  (prevs.filter
    (fun prev => !(decide (prev.seq_num ≤ vcGet (rowD syncs cur.stream) prev.stream)))).map
    (fun prev => ⟨data_ptr, ta.get_allocation_stack_trace data_ptr, cur, prev⟩)

/-- All accesses recorded in a `TensorInfo` have seq-num at most `m`. -/
def InfoBound (m : SeqNum) (info : TensorInfo) : Prop :=
  (∀ a ∈ info.reads, a.seq_num ≤ m) ∧ (∀ a ∈ info.write.toList, a.seq_num ≤ m)

/-- All accesses recorded in the log have seq-num at most `m`. -/
def LogBound (m : SeqNum) (ta : _TensorsAccessed) : Prop :=
  ∀ pe ∈ ta.accesses, InfoBound m pe.2

/-- Well-formedness of the sync table: every stream id appearing as a
coordinate of a current clock or a recorded snapshot has a row of its
own.  It holds initially and is preserved by every operation, since
coordinates originate from `update_seq_num` on an existing row and are
only copied around by `record_state` / `state_wait_for_event` while rows
are never deleted. -/
def SyncWF (st : StreamSynchronizations) : Prop :=
  (∀ pv ∈ st.current_sync_states, ∀ tv ∈ pv.2,
    (dlookup st.current_sync_states tv.1).isSome = true) ∧
  (∀ ev ∈ st.recorded_sync_states, ∀ tv ∈ ev.2,
    (dlookup st.current_sync_states tv.1).isSome = true)

/-- Key/value well-formedness of the sync table: in every current clock
and every recorded snapshot the keys are duplicate-free and the values
are at least `-1`.  It holds in every reachable state: Python dict keys
cannot repeat and all stored seq-nums are nonnegative. -/
def ClockWF (st : StreamSynchronizations) : Prop :=
  (∀ pv ∈ st.current_sync_states, (pv.2.map Prod.fst).Nodup ∧
    ∀ tv ∈ pv.2, (-1 : SeqNum) ≤ tv.2) ∧
  (∀ ev ∈ st.recorded_sync_states, (ev.2.map Prod.fst).Nodup ∧
    ∀ tv ∈ ev.2, (-1 : SeqNum) ≤ tv.2)

/-- Reachable-state invariant of the whole handler: the sync table is
key/value well-formed and the launch counter is nonnegative. -/
def HandlerWF (h : EventHandler) : Prop :=
  ClockWF h.syncs ∧ 0 ≤ h.seq_num

/-- Invariant carried through the loops of one `_handle_kernel_launch`
call on `stream` with fresh seq-num `seq`: every logged access is at most
`seq`, the stream's self-clock reads `seq`, and every report accumulated
so far cites accesses of two different streams. -/
def StepInv (stream : StreamId) (seq : SeqNum) (acc : LaunchFold) : Prop :=
  LogBound seq acc.ta ∧ vcGet (rowD acc.syncs stream) stream = seq ∧
  ∀ r ∈ acc.errs, r.current_access.stream ≠ r.previous_access.stream

/-- Concrete sync table used to witness the `wait` theorem. -/
def waitDemo : StreamSynchronizations :=
  ⟨[(0, [(0, 3)])], [(7, [(0, 5), (1, 2)])]⟩

/-- Scenario 1 of the spec: write on stream 0, then unsynchronized read
on stream 1, of buffer `0xB`. -/
def raceDemoEvents : List TraceEvent :=
  [TraceEvent.stream_creation 0, TraceEvent.stream_creation 1,
   TraceEvent.memory_allocation 0xB,
   TraceEvent.kernel_launch 0 [] [0xB] "op" [(0xB, ["arg"])],
   TraceEvent.kernel_launch 1 [0xB] [] "op" [(0xB, ["arg"])]]

/-- The single report produced by `raceDemoEvents`: the seq-num-2 READ on
stream 1 against the seq-num-1 WRITE on stream 0. -/
def raceDemoError : UnsynchronizedAccessError :=
  ⟨0xB, some (), ⟨AccessType.READ, 2, 1, "op", ["arg"], ()⟩,
    ⟨AccessType.WRITE, 1, 0, "op", ["arg"], ()⟩⟩

theorem dlookup_dset {V : Type} (d : List (Nat × V)) (k : Nat) (v : V) (k' : Nat) :
    dlookup (dset d k v) k' = if k' = k then some v else dlookup d k' := by
  induction d with
  | nil =>
      by_cases h : k' = k <;> simp [dset, dlookup, h]
  | cons hd tl ih =>
      obtain ⟨a, w⟩ := hd
      by_cases hka : k = a
      · subst hka
        by_cases h : k' = k <;> simp [dset, dlookup, h]
      · by_cases h : k' = a
        · subst h
          simp [dset, dlookup, hka, Ne.symm hka]
        · simp [dset, dlookup, hka, h, ih]

theorem dlookup_dset_self {V : Type} (d : List (Nat × V)) (k : Nat) (v : V) :
    dlookup (dset d k v) k = some v := by
  simp [dlookup_dset]

theorem dlookup_dset_ne {V : Type} (d : List (Nat × V)) (k : Nat) (v : V)
    (k' : Nat) (h : k' ≠ k) : dlookup (dset d k v) k' = dlookup d k' := by
  simp [dlookup_dset, h]

theorem dlookup_dmodify {V : Type} (d : List (Nat × V)) (k : Nat) (f : V → V)
    (k' : Nat) :
    dlookup (dmodify d k f) k' =
      if k' = k then (dlookup d k).map f else dlookup d k' := by
  induction d with
  | nil =>
      by_cases h : k' = k <;> simp [dmodify, dlookup, h]
  | cons hd tl ih =>
      obtain ⟨a, w⟩ := hd
      by_cases hka : k = a
      · subst hka
        by_cases h : k' = k <;> simp [dmodify, dlookup, h]
      · by_cases h : k' = a
        · subst h
          simp [dmodify, dlookup, hka, Ne.symm hka]
        · simp [dmodify, dlookup, hka, h, ih]

theorem dlookup_mem {V : Type} {d : List (Nat × V)} {k : Nat} {v : V}
    (h : dlookup d k = some v) : (k, v) ∈ d := by
  induction d with
  | nil => simp [dlookup] at h
  | cons hd tl ih =>
      obtain ⟨a, w⟩ := hd
      by_cases hk : k = a
      · subst hk
        simp [dlookup] at h
        simp [h]
      · simp [dlookup, hk] at h
        exact List.mem_cons_of_mem _ (ih h)

theorem mem_dset {V : Type} {d : List (Nat × V)} {k : Nat} {v : V}
    {x : Nat × V} (h : x ∈ dset d k v) : x = (k, v) ∨ x ∈ d := by
  induction d with
  | nil => simp [dset] at h; simp [h]
  | cons hd tl ih =>
      obtain ⟨a, w⟩ := hd
      by_cases hk : k = a
      · subst hk
        simp [dset] at h
        rcases h with h | h
        · exact Or.inl (by simp [h])
        · exact Or.inr (List.mem_cons_of_mem _ h)
      · simp [dset, hk] at h
        rcases h with h | h
        · exact Or.inr (by simp [h])
        · rcases ih h with h' | h'
          · exact Or.inl h'
          · exact Or.inr (List.mem_cons_of_mem _ h')

theorem mem_dmodify {V : Type} {d : List (Nat × V)} {k : Nat} {f : V → V}
    {x : Nat × V} (h : x ∈ dmodify d k f) :
    x ∈ d ∨ ∃ w, (k, w) ∈ d ∧ x = (k, f w) := by
  induction d with
  | nil => simp [dmodify] at h
  | cons hd tl ih =>
      obtain ⟨a, w⟩ := hd
      by_cases hk : k = a
      · subst hk
        simp [dmodify] at h
        rcases h with h | h
        · exact Or.inr ⟨w, by simp, by simp [h]⟩
        · exact Or.inl (List.mem_cons_of_mem _ h)
      · simp [dmodify, hk] at h
        rcases h with h | h
        · exact Or.inl (by simp [h])
        · rcases ih h with h' | ⟨w', hw', hx⟩
          · exact Or.inl (List.mem_cons_of_mem _ h')
          · exact Or.inr ⟨w', List.mem_cons_of_mem _ hw', hx⟩

theorem mem_ddel {V : Type} {d : List (Nat × V)} {k : Nat} {x : Nat × V}
    (h : x ∈ ddel d k) : x ∈ d := by
  induction d with
  | nil => simp [ddel] at h
  | cons hd tl ih =>
      obtain ⟨a, w⟩ := hd
      by_cases hk : k = a
      · subst hk
        simp [ddel] at h
        exact List.mem_cons_of_mem _ h
      · simp [ddel, hk] at h
        rcases h with h | h
        · exact (by simp [h] : x ∈ (a, w) :: tl)
        · exact List.mem_cons_of_mem _ (ih h)

theorem not_isSome_none {V : Type} {o : Option V} (h : ¬ o.isSome = true) :
    o = none := by
  cases o with
  | none => rfl
  | some v => simp at h

theorem dlookup_eq_none_iff {V : Type} (d : List (Nat × V)) (k : Nat) :
    dlookup d k = none ↔ k ∉ d.map Prod.fst := by
  induction d with
  | nil => simp [dlookup]
  | cons hd tl ih =>
      obtain ⟨a, w⟩ := hd
      by_cases h : k = a <;> simp [dlookup, h, ih]

theorem vcGet_dset (row : VectorClock) (k : StreamId) (v : SeqNum)
    (t : StreamId) : vcGet (dset row k v) t = if t = k then v else vcGet row t := by
  by_cases h : t = k <;> simp [vcGet, dlookup_dset, h]

theorem rowD_ensure_stream_exists (st : StreamSynchronizations)
    (t s : StreamId) : rowD (st.ensure_stream_exists t) s = rowD st s := by
  unfold StreamSynchronizations.ensure_stream_exists
    StreamSynchronizations.create_stream
  by_cases h : (dlookup st.current_sync_states t).isSome
  · simp [h]
  · have hnone : dlookup st.current_sync_states t = none := not_isSome_none h
    by_cases hst : s = t
    · subst hst
      simp [h, rowD, dlookup_dset_self, hnone]
    · simp [h, rowD, dlookup_dset_ne _ _ _ _ hst]

theorem recorded_ensure_stream_exists (st : StreamSynchronizations)
    (t : StreamId) :
    (st.ensure_stream_exists t).recorded_sync_states = st.recorded_sync_states := by
  unfold StreamSynchronizations.ensure_stream_exists
    StreamSynchronizations.create_stream
  by_cases h : (dlookup st.current_sync_states t).isSome <;> simp [h]

/-- Characterization of `is_ordered_after`: its boolean result is a pure
function of the table it was given, and it only back-fills empty rows
(every row keeps the same default-read value). -/
theorem is_ordered_after_spec (st : StreamSynchronizations)
    (c : StreamId) (n : SeqNum) (o : StreamId) :
    (st.is_ordered_after c n o).1 = decide (n ≤ vcGet (rowD st c) o) ∧
    (∀ s, rowD (st.is_ordered_after c n o).2 s = rowD st s) ∧
    (st.is_ordered_after c n o).2.recorded_sync_states = st.recorded_sync_states := by
  refine ⟨?_, ?_, ?_⟩
  · show decide (n ≤ vcGet (rowD ((st.ensure_stream_exists c).ensure_stream_exists o) c) o)
      = decide (n ≤ vcGet (rowD st c) o)
    rw [rowD_ensure_stream_exists, rowD_ensure_stream_exists]
  · intro s
    show rowD ((st.ensure_stream_exists c).ensure_stream_exists o) s = rowD st s
    rw [rowD_ensure_stream_exists, rowD_ensure_stream_exists]
  · show ((st.ensure_stream_exists c).ensure_stream_exists o).recorded_sync_states
      = st.recorded_sync_states
    rw [recorded_ensure_stream_exists, recorded_ensure_stream_exists]

theorem current_ensure_event_exists (st : StreamSynchronizations) (e : EventId) :
    (st.ensure_event_exists e).current_sync_states = st.current_sync_states := by
  unfold StreamSynchronizations.ensure_event_exists
  by_cases h : (dlookup st.recorded_sync_states e).isSome <;> simp [h]

theorem rowD_ensure_event_exists (st : StreamSynchronizations) (e : EventId)
    (s : StreamId) : rowD (st.ensure_event_exists e) s = rowD st s := by
  simp [rowD, current_ensure_event_exists]

theorem recorded_getD_ensure_event_exists (st : StreamSynchronizations)
    (e : EventId) :
    (dlookup (st.ensure_event_exists e).recorded_sync_states e).getD [] =
      (dlookup st.recorded_sync_states e).getD [] := by
  unfold StreamSynchronizations.ensure_event_exists
  by_cases h : (dlookup st.recorded_sync_states e).isSome
  · simp [h]
  · simp [h, dlookup_dset_self, not_isSome_none h]

/-- The row actually written by `state_wait_for_event` is the
`waitUpdate` fold of the event's snapshot over the stream's old row. -/
theorem state_wait_rowD (st : StreamSynchronizations) (s : StreamId)
    (e : EventId) :
    rowD (st.state_wait_for_event s e) s =
      ((dlookup st.recorded_sync_states e).getD []).foldl waitUpdate (rowD st s) := by
  unfold StreamSynchronizations.state_wait_for_event
  simp only [rowD, dlookup_dset_self, Option.getD_some]
  rw [recorded_ensure_stream_exists, recorded_getD_ensure_event_exists]
  have hr : (dlookup ((st.ensure_event_exists e).ensure_stream_exists s).current_sync_states s).getD []
      = rowD st s := by
    show rowD ((st.ensure_event_exists e).ensure_stream_exists s) s = rowD st s
    rw [rowD_ensure_stream_exists, rowD_ensure_event_exists]
  rw [hr]
  rfl

/-- `waitUpdate` folding leaves coordinates outside the snapshot's keys
unchanged. -/
theorem waitFold_not_mem (snap : VectorClock) (row : VectorClock)
    (t : StreamId) (h : t ∉ snap.map Prod.fst) :
    vcGet (snap.foldl waitUpdate row) t = vcGet row t := by
  induction snap generalizing row with
  | nil => rfl
  | cons hd tl ih =>
      obtain ⟨k, m⟩ := hd
      simp only [List.map_cons, List.mem_cons] at h
      push_neg at h
      simp only [List.foldl_cons]
      rw [ih _ h.2, waitUpdate, vcGet_dset]
      simp [h.1]

/-- Pointwise value of the `waitUpdate` fold, for a duplicate-free
snapshot: coordinates in the snapshot become the max of old row value and
snapshot value, the rest keep their row value. -/
theorem waitFold_vcGet (snap : VectorClock) (hnd : (snap.map Prod.fst).Nodup)
    (row : VectorClock) (t : StreamId) :
    vcGet (snap.foldl waitUpdate row) t =
      (match dlookup snap t with
        | some v => max (vcGet row t) v
        | none => vcGet row t) := by
  induction snap generalizing row with
  | nil => rfl
  | cons hd tl ih =>
      obtain ⟨k, m⟩ := hd
      simp only [List.map_cons, List.nodup_cons] at hnd
      simp only [List.foldl_cons]
      by_cases ht : t = k
      · subst ht
        rw [waitFold_not_mem tl _ t hnd.1]
        simp [dlookup, waitUpdate, vcGet_dset]
      · rw [ih hnd.2]
        have h1 : dlookup ((k, m) :: tl) t = dlookup tl t := by
          simp [dlookup, ht]
        rw [h1]
        have h2 : vcGet (waitUpdate row (k, m)) t = vcGet row t := by
          rw [waitUpdate, vcGet_dset]
          simp [ht]
        rw [h2]

theorem dlookup_ensure_stream_exists_present (st : StreamSynchronizations)
    (t s : StreamId) (vc : VectorClock)
    (h : dlookup st.current_sync_states s = some vc) :
    dlookup (st.ensure_stream_exists t).current_sync_states s = some vc := by
  unfold StreamSynchronizations.ensure_stream_exists
    StreamSynchronizations.create_stream
  by_cases ht : (dlookup st.current_sync_states t).isSome
  · simp [ht, h]
  · have hst : s ≠ t := by
      intro he
      subst he
      rw [h] at ht
      simp at ht
    simp [ht, dlookup_dset_ne _ _ _ _ hst, h]

theorem dlookup_ensure_stream_exists_self (st : StreamSynchronizations)
    (t : StreamId) :
    dlookup (st.ensure_stream_exists t).current_sync_states t = some (rowD st t) := by
  unfold StreamSynchronizations.ensure_stream_exists
    StreamSynchronizations.create_stream
  by_cases ht : (dlookup st.current_sync_states t).isSome
  · obtain ⟨vc, hvc⟩ := Option.isSome_iff_exists.mp ht
    simp [ht, rowD, hvc]
  · simp [ht, dlookup_dset_self, rowD, not_isSome_none ht]

/-- In a well-formed table, a stream with no row of its own never appears
as a coordinate of another stream's clock, so its default read is `-1`. -/
theorem SyncWF_absent_coord {st : StreamSynchronizations} (hwf : SyncWF st)
    {o : StreamId} (h : dlookup st.current_sync_states o = none)
    (c : StreamId) : vcGet (rowD st c) o = -1 := by
  cases hx : dlookup st.current_sync_states c with
  | none => simp [rowD, vcGet, hx, dlookup]
  | some vc =>
      cases hy : dlookup vc o with
      | none => simp [rowD, vcGet, hx, hy]
      | some m =>
          have hw := hwf.1 (c, vc) (dlookup_mem hx) (o, m) (dlookup_mem hy)
          rw [h] at hw
          simp at hw

/-- C1: for every sync-table state, streams `s_cur`, `s_prev` and seq-num
`n`, `is_ordered_after(s_cur, n, s_prev)` returns true iff
`n ≤ current[s_cur][s_prev]`, where a missing key `s_prev` in
`current[s_cur]` (and a missing row `s_cur`) reads as the default `-1`. -/
theorem C1_is_ordered_after_iff (st : StreamSynchronizations)
    (s_cur s_prev : StreamId) (n : SeqNum) :
    (st.is_ordered_after s_cur n s_prev).1 = true ↔
      n ≤ vcGet (rowD st s_cur) s_prev := by
  rw [(is_ordered_after_spec st s_cur n s_prev).1]
  simp

/-- C4: immediately after `record(e, s)` the snapshot stored for `e` is a
copy of the recording stream's current clock: same value on every stream
and no other keys, replacing any prior snapshot of `e`; the recording
stream's row itself was not changed by the call. -/
theorem C4_record_state_snapshot (st : StreamSynchronizations) (e : EventId)
    (s : StreamId) :
    dlookup (st.record_state e s).recorded_sync_states e = some (rowD st s) ∧
    rowD (st.record_state e s) s = rowD st s := by
  constructor
  · show dlookup (dset ((st.ensure_event_exists e).ensure_stream_exists s).recorded_sync_states e
        (rowD ((st.ensure_event_exists e).ensure_stream_exists s) s)) e = some (rowD st s)
    rw [dlookup_dset_self, rowD_ensure_stream_exists, rowD_ensure_event_exists]
  · show rowD ((st.ensure_event_exists e).ensure_stream_exists s) s = rowD st s
    rw [rowD_ensure_stream_exists, rowD_ensure_event_exists]

/-- C5: after `wait(s, e)`, for every stream `t` the clock of `s`
dominates the snapshot of `e` (default `-1`); each coordinate present in
the snapshot becomes the max of its old value and the snapshot value,
and every other coordinate is unchanged.  The duplicate-free-keys
hypothesis and the `≥ -1` value bound hold of every table the program
builds (Python dicts cannot repeat keys, and all stored seq-nums are
positive). -/
theorem C5_wait_propagates (st : StreamSynchronizations) (s : StreamId)
    (e : EventId)
    (hnd : (((dlookup st.recorded_sync_states e).getD []).map Prod.fst).Nodup)
    (hrow : ∀ tv ∈ rowD st s, (-1 : SeqNum) ≤ tv.2) :
    (∀ t, vcGet ((dlookup st.recorded_sync_states e).getD []) t ≤
      vcGet (rowD (st.state_wait_for_event s e) s) t) ∧
    (∀ t v, dlookup ((dlookup st.recorded_sync_states e).getD []) t = some v →
      vcGet (rowD (st.state_wait_for_event s e) s) t = max (vcGet (rowD st s) t) v) ∧
    (∀ t, dlookup ((dlookup st.recorded_sync_states e).getD []) t = none →
      vcGet (rowD (st.state_wait_for_event s e) s) t = vcGet (rowD st s) t) := by
  have hch : ∀ t, vcGet (rowD (st.state_wait_for_event s e) s) t =
      (match dlookup ((dlookup st.recorded_sync_states e).getD []) t with
        | some v => max (vcGet (rowD st s) t) v
        | none => vcGet (rowD st s) t) := by
    intro t
    rw [state_wait_rowD]
    exact waitFold_vcGet _ hnd _ t
  refine ⟨?_, ?_, ?_⟩
  · intro t
    rw [hch t]
    cases hx : dlookup ((dlookup st.recorded_sync_states e).getD []) t with
    | some v =>
        have hv : vcGet ((dlookup st.recorded_sync_states e).getD []) t = v := by
          simp [vcGet, hx]
        rw [hv]
        exact le_max_right _ _
    | none =>
        have hv : vcGet ((dlookup st.recorded_sync_states e).getD []) t = -1 := by
          simp [vcGet, hx]
        rw [hv]
        cases hy : dlookup (rowD st s) t with
        | some w =>
            have hb := hrow (t, w) (dlookup_mem hy)
            simpa [vcGet, hy] using hb
        | none => simp [vcGet, hy]
  · intro t v hx
    rw [hch t, hx]
  · intro t hx
    rw [hch t, hx]

/-- Witness for C5 at a concrete table: stream 0 has clock `{0: 3}`,
event 7 recorded `{0: 5, 1: 2}`. -/
theorem C5_wait_propagates_witness :
    ((((dlookup waitDemo.recorded_sync_states 7).getD []).map Prod.fst).Nodup ∧
      (∀ tv ∈ rowD waitDemo 0, (-1 : SeqNum) ≤ tv.2)) ∧
    ((∀ t, vcGet ((dlookup waitDemo.recorded_sync_states 7).getD []) t ≤
      vcGet (rowD (waitDemo.state_wait_for_event 0 7) 0) t) ∧
    (∀ t v, dlookup ((dlookup waitDemo.recorded_sync_states 7).getD []) t = some v →
      vcGet (rowD (waitDemo.state_wait_for_event 0 7) 0) t = max (vcGet (rowD waitDemo 0) t) v) ∧
    (∀ t, dlookup ((dlookup waitDemo.recorded_sync_states 7).getD []) t = none →
      vcGet (rowD (waitDemo.state_wait_for_event 0 7) 0) t = vcGet (rowD waitDemo 0) t)) :=
  ⟨⟨by decide, by decide⟩, C5_wait_propagates waitDemo 0 7 (by decide) (by decide)⟩

/-- C6: immediately after `set_write(b, a)` on a buffer present in the
log, the buffer's reads-since-last-write list is empty and its last
writer is `a`. -/
theorem C6_set_write_clears_readers (ta : _TensorsAccessed) (b : DataPtr)
    (a : Access) (h : (dlookup ta.accesses b).isSome = true) :
    (ta.set_write b a).get_reads b = [] ∧
    (ta.set_write b a).get_write b = some a := by
  obtain ⟨i, hi⟩ := Option.isSome_iff_exists.mp h
  constructor
  · simp [_TensorsAccessed.set_write, _TensorsAccessed.get_reads,
      dlookup_dmodify, hi]
  · simp [_TensorsAccessed.set_write, _TensorsAccessed.get_write,
      dlookup_dmodify, hi]

/-- Witness for C6 on a one-buffer log holding a previous read. -/
theorem C6_set_write_clears_readers_witness :
    ((dlookup (⟨[(5, ⟨none, [⟨AccessType.READ, 1, 0, "op", [], ()⟩], none⟩)]⟩ :
      _TensorsAccessed).accesses 5).isSome = true) ∧
    (((⟨[(5, ⟨none, [⟨AccessType.READ, 1, 0, "op", [], ()⟩], none⟩)]⟩ :
        _TensorsAccessed).set_write 5 ⟨AccessType.WRITE, 2, 0, "op", [], ()⟩).get_reads 5 = [] ∧
      ((⟨[(5, ⟨none, [⟨AccessType.READ, 1, 0, "op", [], ()⟩], none⟩)]⟩ :
        _TensorsAccessed).set_write 5 ⟨AccessType.WRITE, 2, 0, "op", [], ()⟩).get_write 5 =
        some ⟨AccessType.WRITE, 2, 0, "op", [], ()⟩) :=
  ⟨by decide, C6_set_write_clears_readers _ 5 _ (by decide)⟩

/-- C8: on a fresh core, the scenario `create_stream(0); create_stream(1);
alloc(0xB); launch(0, [], [0xB], op); launch(1, [0xB], [], op)` produces
no report on the first launch and exactly one on the second: the READ
with seq-num 2 on stream 1 against the WRITE with seq-num 1 on stream 0,
on buffer `0xB`. -/
theorem C8_race_scenario :
    (runTrace EventHandler.init raceDemoEvents).1 =
      [[], [], [], [], [raceDemoError]] := by
  decide

/-- C9: replaying a fixed event stream on a fresh core is deterministic:
two runs produce structurally equal report lists at every event.  In
this embedding the replay is a pure function of the trace, so the two
runs agree definitionally. -/
theorem C9_deterministic_replay (evs : List TraceEvent) :
    (runTrace EventHandler.init evs).1 = (runTrace EventHandler.init evs).1 := rfl

/-- C10: `is_ordered_after(s_cur, n, s_prev)` is not state-preserving: it
back-fills an empty clock for `s_cur` and for `s_prev` when absent, while
keeping every present stream's clock and all recorded snapshots
unchanged; and on a well-formed table its boolean result for an absent
`s_prev` is `n ≤ -1`. -/
theorem C10_is_ordered_after_frame (st : StreamSynchronizations)
    (s_cur s_prev : StreamId) (n : SeqNum) (hwf : SyncWF st) :
    (st.is_ordered_after s_cur n s_prev).2.recorded_sync_states =
      st.recorded_sync_states ∧
    (∀ s vc, dlookup st.current_sync_states s = some vc →
      dlookup (st.is_ordered_after s_cur n s_prev).2.current_sync_states s = some vc) ∧
    (dlookup st.current_sync_states s_cur = none →
      dlookup (st.is_ordered_after s_cur n s_prev).2.current_sync_states s_cur = some []) ∧
    (dlookup st.current_sync_states s_prev = none →
      dlookup (st.is_ordered_after s_cur n s_prev).2.current_sync_states s_prev = some []) ∧
    (dlookup st.current_sync_states s_prev = none →
      (st.is_ordered_after s_cur n s_prev).1 = decide (n ≤ -1)) := by
  refine ⟨(is_ordered_after_spec st s_cur n s_prev).2.2, ?_, ?_, ?_, ?_⟩
  · intro s vc h
    show dlookup ((st.ensure_stream_exists s_cur).ensure_stream_exists s_prev).current_sync_states s = some vc
    exact dlookup_ensure_stream_exists_present _ _ _ _
      (dlookup_ensure_stream_exists_present _ _ _ _ h)
  · intro h
    show dlookup ((st.ensure_stream_exists s_cur).ensure_stream_exists s_prev).current_sync_states s_cur = some []
    have h1 : dlookup (st.ensure_stream_exists s_cur).current_sync_states s_cur = some [] := by
      rw [dlookup_ensure_stream_exists_self]
      simp [rowD, h]
    exact dlookup_ensure_stream_exists_present _ _ _ _ h1
  · intro h
    show dlookup ((st.ensure_stream_exists s_cur).ensure_stream_exists s_prev).current_sync_states s_prev = some []
    rw [dlookup_ensure_stream_exists_self, rowD_ensure_stream_exists]
    simp [rowD, h]
  · intro h
    rw [(is_ordered_after_spec st s_cur n s_prev).1, SyncWF_absent_coord hwf h]

/-- Witness for C10 on the fresh (empty, well-formed) table with both
streams absent. -/
theorem C10_is_ordered_after_frame_witness :
    SyncWF StreamSynchronizations.init ∧
    ((StreamSynchronizations.init.is_ordered_after 0 (0 : SeqNum) 1).2.recorded_sync_states =
      StreamSynchronizations.init.recorded_sync_states ∧
    (∀ s vc, dlookup StreamSynchronizations.init.current_sync_states s = some vc →
      dlookup (StreamSynchronizations.init.is_ordered_after 0 (0 : SeqNum) 1).2.current_sync_states s = some vc) ∧
    (dlookup StreamSynchronizations.init.current_sync_states 0 = none →
      dlookup (StreamSynchronizations.init.is_ordered_after 0 (0 : SeqNum) 1).2.current_sync_states 0 = some []) ∧
    (dlookup StreamSynchronizations.init.current_sync_states 1 = none →
      dlookup (StreamSynchronizations.init.is_ordered_after 0 (0 : SeqNum) 1).2.current_sync_states 1 = some []) ∧
    (dlookup StreamSynchronizations.init.current_sync_states 1 = none →
      (StreamSynchronizations.init.is_ordered_after 0 (0 : SeqNum) 1).1 = decide ((0 : SeqNum) ≤ -1))) :=
  ⟨⟨by decide, by decide⟩,
    C10_is_ordered_after_frame StreamSynchronizations.init 0 1 0 ⟨by decide, by decide⟩⟩

theorem check_conflict_rowD (syncs : StreamSynchronizations)
    (ta : _TensorsAccessed) (p : DataPtr) (cur : Access)
    (prev? : Option Access) (s : StreamId) :
    rowD (check_conflict syncs ta p cur prev?).1 s = rowD syncs s := by
  cases prev? with
  | none => rfl
  | some prev =>
      show rowD (if (syncs.is_ordered_after cur.stream prev.seq_num prev.stream).1 then
          ((syncs.is_ordered_after cur.stream prev.seq_num prev.stream).2, none)
        else ((syncs.is_ordered_after cur.stream prev.seq_num prev.stream).2,
          some (UnsynchronizedAccessError.mk p (ta.get_allocation_stack_trace p)
            cur prev))).1 s = rowD syncs s
      by_cases hb : (syncs.is_ordered_after cur.stream prev.seq_num prev.stream).1 <;>
        simp [hb, (is_ordered_after_spec syncs cur.stream prev.seq_num prev.stream).2.1 s]

theorem check_conflict_err (syncs : StreamSynchronizations)
    (ta : _TensorsAccessed) (p : DataPtr) (cur : Access)
    (prev? : Option Access) :
    (check_conflict syncs ta p cur prev?).2 =
      (match prev? with
        | none => none
        | some prev =>
            if prev.seq_num ≤ vcGet (rowD syncs cur.stream) prev.stream then none
            else some ⟨p, ta.get_allocation_stack_trace p, cur, prev⟩) := by
  cases prev? with
  | none => rfl
  | some prev =>
      show (if (syncs.is_ordered_after cur.stream prev.seq_num prev.stream).1 then
          ((syncs.is_ordered_after cur.stream prev.seq_num prev.stream).2, none)
        else ((syncs.is_ordered_after cur.stream prev.seq_num prev.stream).2,
          some (UnsynchronizedAccessError.mk p (ta.get_allocation_stack_trace p)
            cur prev))).2 =
        (if prev.seq_num ≤ vcGet (rowD syncs cur.stream) prev.stream then none
          else some (UnsynchronizedAccessError.mk p (ta.get_allocation_stack_trace p)
            cur prev))
      rw [(is_ordered_after_spec syncs cur.stream prev.seq_num prev.stream).1]
      by_cases hp : prev.seq_num ≤ vcGet (rowD syncs cur.stream) prev.stream <;>
        simp [hp]

/-- The optional report of one conflict check, as a list, is the
spec-side report list of the optional previous access. -/
theorem check_conflict_toList (syncs : StreamSynchronizations)
    (ta : _TensorsAccessed) (p : DataPtr) (cur : Access)
    (prev? : Option Access) :
    (check_conflict syncs ta p cur prev?).2.toList =
      spec_conflict_reports syncs ta p cur prev?.toList := by
  rw [check_conflict_err]
  cases prev? with
  | none => rfl
  | some prev =>
      by_cases hp : prev.seq_num ≤ vcGet (rowD syncs cur.stream) prev.stream <;>
        simp [hp, spec_conflict_reports]

theorem spec_conflict_reports_congr {syncs1 syncs : StreamSynchronizations}
    {cur : Access} (h : rowD syncs1 cur.stream = rowD syncs cur.stream)
    (ta : _TensorsAccessed) (p : DataPtr) (prevs : List Access) :
    spec_conflict_reports syncs1 ta p cur prevs =
      spec_conflict_reports syncs ta p cur prevs := by
  simp [spec_conflict_reports, h]

/-- The reads-loop fold of the write phase: its accumulated reports are
exactly the spec-side report list against the reads, and it only
back-fills empty rows in the sync table. -/
theorem rwFold_spec (ta : _TensorsAccessed) (p : DataPtr) (cur : Access)
    (prevs : List Access) (syncs : StreamSynchronizations)
    (errs0 : List UnsynchronizedAccessError) :
    (prevs.foldl (fun sc prev =>
        let r1 := check_conflict sc.1 ta p cur (some prev)
        (r1.1, sc.2 ++ r1.2.toList)) (syncs, errs0)).2 =
      errs0 ++ spec_conflict_reports syncs ta p cur prevs ∧
    (∀ s, rowD (prevs.foldl (fun sc prev =>
        let r1 := check_conflict sc.1 ta p cur (some prev)
        (r1.1, sc.2 ++ r1.2.toList)) (syncs, errs0)).1 s = rowD syncs s) := by
  induction prevs generalizing syncs errs0 with
  | nil => simp [spec_conflict_reports]
  | cons prev tl ih =>
      simp only [List.foldl_cons]
      obtain ⟨ih1, ih2⟩ := ih (check_conflict syncs ta p cur (some prev)).1
        (errs0 ++ (check_conflict syncs ta p cur (some prev)).2.toList)
      constructor
      · rw [ih1,
          spec_conflict_reports_congr
            (check_conflict_rowD syncs ta p cur (some prev) cur.stream) ta p tl,
          check_conflict_toList]
        show errs0 ++ spec_conflict_reports syncs ta p cur [prev] ++
            spec_conflict_reports syncs ta p cur tl =
          errs0 ++ spec_conflict_reports syncs ta p cur (prev :: tl)
        by_cases hp : prev.seq_num ≤ vcGet (rowD syncs cur.stream) prev.stream <;>
          simp [spec_conflict_reports, List.filter_cons, hp]
      · intro s
        rw [ih2 s, check_conflict_rowD]

theorem get_reads_nonempty_iff (ta : _TensorsAccessed) (p : DataPtr) :
    ta.were_there_reads_since_last_write p = true ↔ ta.get_reads p ≠ [] := by
  unfold _TensorsAccessed.were_there_reads_since_last_write
  cases hx : ta.get_reads p <;> simp [hx]

/-- The reports appended by one read-write-loop iteration are the
spec-side conflict reports of the fresh WRITE access against the readers
when there are any, and against the optional last writer otherwise. -/
theorem rwStep_errs (stream : StreamId) (seq : SeqNum) (operator : String)
    (tensor_names : List (DataPtr × List String)) (acc : LaunchFold)
    (p : DataPtr) :
    (rwStep stream seq operator tensor_names acc p).errs =
      acc.errs ++ spec_conflict_reports acc.syncs (acc.ta.ensure_tensor_exists p) p
        ⟨AccessType.WRITE, seq, stream, operator, (dlookup tensor_names p).getD [], ()⟩
        (if (acc.ta.ensure_tensor_exists p).get_reads p ≠ [] then
          (acc.ta.ensure_tensor_exists p).get_reads p
        else ((acc.ta.ensure_tensor_exists p).get_write p).toList) := by
  unfold rwStep
  by_cases hw : (acc.ta.ensure_tensor_exists p).were_there_reads_since_last_write p
  · have hne := (get_reads_nonempty_iff _ p).mp hw
    simp only [hw, if_true, hne, ite_true]
    rw [(rwFold_spec (acc.ta.ensure_tensor_exists p) p _ _ acc.syncs []).1]
    simp [hne]
  · have hr : ¬ (acc.ta.ensure_tensor_exists p).get_reads p ≠ [] := by
      intro hne
      exact hw ((get_reads_nonempty_iff _ p).mpr hne)
    simp only [hw, if_false, hr, ite_false]
    rw [check_conflict_toList]
    simp [hr]

theorem rwStep_ta (stream : StreamId) (seq : SeqNum) (operator : String)
    (tensor_names : List (DataPtr × List String)) (acc : LaunchFold)
    (p : DataPtr) :
    (rwStep stream seq operator tensor_names acc p).ta =
      (acc.ta.ensure_tensor_exists p).set_write p
        ⟨AccessType.WRITE, seq, stream, operator, (dlookup tensor_names p).getD [], ()⟩ := rfl

theorem rwStep_rowD (stream : StreamId) (seq : SeqNum) (operator : String)
    (tensor_names : List (DataPtr × List String)) (acc : LaunchFold)
    (p : DataPtr) (s : StreamId) :
    rowD (rwStep stream seq operator tensor_names acc p).syncs s =
      rowD acc.syncs s := by
  unfold rwStep
  by_cases hw : (acc.ta.ensure_tensor_exists p).were_there_reads_since_last_write p
  · simp only [hw, if_true]
    exact (rwFold_spec (acc.ta.ensure_tensor_exists p) p _ _ acc.syncs []).2 s
  · simp only [hw, if_false]
    exact check_conflict_rowD _ _ _ _ _ s

theorem roStep_errs (stream : StreamId) (seq : SeqNum) (operator : String)
    (tensor_names : List (DataPtr × List String)) (acc : LaunchFold)
    (p : DataPtr) :
    (roStep stream seq operator tensor_names acc p).errs =
      acc.errs ++ spec_conflict_reports acc.syncs (acc.ta.ensure_tensor_exists p) p
        ⟨AccessType.READ, seq, stream, operator, (dlookup tensor_names p).getD [], ()⟩
        ((acc.ta.ensure_tensor_exists p).get_write p).toList := by
  show acc.errs ++ (check_conflict acc.syncs (acc.ta.ensure_tensor_exists p) p _ _).2.toList = _
  rw [check_conflict_toList]

theorem roStep_rowD (stream : StreamId) (seq : SeqNum) (operator : String)
    (tensor_names : List (DataPtr × List String)) (acc : LaunchFold)
    (p : DataPtr) (s : StreamId) :
    rowD (roStep stream seq operator tensor_names acc p).syncs s =
      rowD acc.syncs s :=
  check_conflict_rowD _ _ _ _ _ s

theorem toList_mem {α : Type} {o : Option α} {a : α} (h : a ∈ o.toList) :
    o = some a := by
  cases o with
  | none => simp at h
  | some v => simp at h; simp [h]

theorem LogBound_mono {m : SeqNum} {ta : _TensorsAccessed}
    (hb : LogBound m ta) (m' : SeqNum) (hm : m ≤ m') : LogBound m' ta := by
  intro pe hpe
  obtain ⟨h1, h2⟩ := hb pe hpe
  exact ⟨fun a ha => le_trans (h1 a ha) hm, fun a ha => le_trans (h2 a ha) hm⟩

theorem InfoBound_empty (m : SeqNum) (stack? : Option StackSummary) :
    InfoBound m ⟨stack?, [], none⟩ := by
  constructor <;> intro a ha <;> simp at ha

theorem LogBound_create_tensor {m : SeqNum} {ta : _TensorsAccessed}
    (hb : LogBound m ta) (p : DataPtr) (stack? : Option StackSummary) :
    LogBound m (ta.create_tensor p stack?) := by
  intro pe hpe
  rcases mem_dset hpe with h | h
  · subst h
    exact InfoBound_empty m stack?
  · exact hb pe h

theorem LogBound_ensure_tensor_exists {m : SeqNum} {ta : _TensorsAccessed}
    (hb : LogBound m ta) (p : DataPtr) :
    LogBound m (ta.ensure_tensor_exists p) := by
  unfold _TensorsAccessed.ensure_tensor_exists
  by_cases h : (dlookup ta.accesses p).isSome
  · simpa [h] using hb
  · simpa [h] using LogBound_create_tensor hb p none

theorem LogBound_delete_tensor {m : SeqNum} {ta : _TensorsAccessed}
    (hb : LogBound m ta) (p : DataPtr) :
    LogBound m (ta.delete_tensor p) :=
  fun pe hpe => hb pe (mem_ddel hpe)

theorem LogBound_ensure_tensor_does_not_exist {m : SeqNum}
    {ta : _TensorsAccessed} (hb : LogBound m ta) (p : DataPtr) :
    LogBound m (ta.ensure_tensor_does_not_exist p) := by
  unfold _TensorsAccessed.ensure_tensor_does_not_exist
  by_cases h : (dlookup ta.accesses p).isSome
  · simpa [h] using LogBound_delete_tensor hb p
  · simpa [h] using hb

theorem LogBound_add_read {m : SeqNum} {ta : _TensorsAccessed}
    (hb : LogBound m ta) (p : DataPtr) {a : Access} (ha : a.seq_num ≤ m) :
    LogBound m (ta.add_read p a) := by
  intro pe hpe
  rcases mem_dmodify hpe with h | ⟨w, hw, hx⟩
  · exact hb pe h
  · subst hx
    obtain ⟨h1, h2⟩ := hb (p, w) hw
    constructor
    · intro b hbm
      rcases List.mem_append.mp hbm with h' | h'
      · exact h1 b h'
      · simp at h'
        subst h'
        exact ha
    · intro b hbm
      exact h2 b hbm

theorem LogBound_set_write {m : SeqNum} {ta : _TensorsAccessed}
    (hb : LogBound m ta) (p : DataPtr) {a : Access} (ha : a.seq_num ≤ m) :
    LogBound m (ta.set_write p a) := by
  intro pe hpe
  rcases mem_dmodify hpe with h | ⟨w, hw, hx⟩
  · exact hb pe h
  · subst hx
    constructor
    · intro b hbm
      simp at hbm
    · intro b hbm
      simp at hbm
      subst hbm
      exact ha

theorem LogBound_get_write {m : SeqNum} {ta : _TensorsAccessed}
    (hb : LogBound m ta) {p : DataPtr} {a : Access}
    (h : ta.get_write p = some a) : a.seq_num ≤ m := by
  unfold _TensorsAccessed.get_write at h
  cases hx : dlookup ta.accesses p with
  | none => rw [hx] at h; simp at h
  | some i =>
      rw [hx] at h
      simp at h
      exact (hb (p, i) (dlookup_mem hx)).2 a (by simp [h])

theorem LogBound_get_reads {m : SeqNum} {ta : _TensorsAccessed}
    (hb : LogBound m ta) {p : DataPtr} {a : Access}
    (h : a ∈ ta.get_reads p) : a.seq_num ≤ m := by
  unfold _TensorsAccessed.get_reads at h
  cases hx : dlookup ta.accesses p with
  | none => rw [hx] at h; simp at h
  | some i =>
      rw [hx] at h
      simp at h
      exact (hb (p, i) (dlookup_mem hx)).1 a h

/-- A report produced by the spec-side conflict check against previous
accesses bounded by the launch's seq-num cannot cite two accesses of the
same stream: a same-stream previous access is always covered by the
freshly bumped self-clock. -/
theorem spec_conflict_reports_same_stream {syncs : StreamSynchronizations}
    {ta : _TensorsAccessed} {p : DataPtr} {cur : Access} {prevs : List Access}
    {seq : SeqNum} (hclk : vcGet (rowD syncs cur.stream) cur.stream = seq)
    (hbnd : ∀ a ∈ prevs, a.seq_num ≤ seq) {r : UnsynchronizedAccessError}
    (hr : r ∈ spec_conflict_reports syncs ta p cur prevs) :
    r.current_access.stream ≠ r.previous_access.stream := by
  unfold spec_conflict_reports at hr
  rcases List.mem_map.mp hr with ⟨prev, hpf, hre⟩
  have hpm := List.mem_filter.mp hpf
  have hnord : ¬ (prev.seq_num ≤ vcGet (rowD syncs cur.stream) prev.stream) := by
    simpa using hpm.2
  subst hre
  show cur.stream ≠ prev.stream
  intro he
  apply hnord
  rw [← he, hclk]
  exact hbnd prev hpm.1

theorem foldl_pres {P : LaunchFold → Prop} {f : LaunchFold → DataPtr → LaunchFold}
    (hf : ∀ acc p, P acc → P (f acc p)) :
    ∀ (l : List DataPtr) (acc : LaunchFold), P acc → P (l.foldl f acc)
  | [], _, h => h
  | p :: tl, acc, h => foldl_pres hf tl (f acc p) (hf acc p h)

theorem foldl_rowD {f : LaunchFold → DataPtr → LaunchFold}
    (hf : ∀ acc p s, rowD (f acc p).syncs s = rowD acc.syncs s) :
    ∀ (l : List DataPtr) (acc : LaunchFold) (s : StreamId),
      rowD (l.foldl f acc).syncs s = rowD acc.syncs s
  | [], _, _ => rfl
  | p :: tl, acc, s => (foldl_rowD hf tl (f acc p) s).trans (hf acc p s)

theorem update_seq_num_rowD (st : StreamSynchronizations) (stream : StreamId)
    (seq : SeqNum) :
    rowD (st.update_seq_num stream seq) stream = dset (rowD st stream) stream seq := by
  unfold StreamSynchronizations.update_seq_num
  simp only [rowD, dlookup_dset_self, Option.getD_some]
  have h := rowD_ensure_stream_exists st stream stream
  simp only [rowD] at h
  rw [h]

theorem roStep_inv (stream : StreamId) (seq : SeqNum) (operator : String)
    (tensor_names : List (DataPtr × List String)) (acc : LaunchFold)
    (p : DataPtr) (hinv : StepInv stream seq acc) :
    StepInv stream seq (roStep stream seq operator tensor_names acc p) := by
  obtain ⟨hlog, hclk, herr⟩ := hinv
  have hlog1 := LogBound_ensure_tensor_exists hlog p
  refine ⟨?_, ?_, ?_⟩
  · exact LogBound_add_read hlog1 p (le_refl seq)
  · rw [roStep_rowD]
    exact hclk
  · intro r hr
    rw [roStep_errs] at hr
    rcases List.mem_append.mp hr with h | h
    · exact herr r h
    · exact spec_conflict_reports_same_stream hclk
        (fun a ha => LogBound_get_write hlog1 (toList_mem ha)) h

theorem rwStep_inv (stream : StreamId) (seq : SeqNum) (operator : String)
    (tensor_names : List (DataPtr × List String)) (acc : LaunchFold)
    (p : DataPtr) (hinv : StepInv stream seq acc) :
    StepInv stream seq (rwStep stream seq operator tensor_names acc p) := by
  obtain ⟨hlog, hclk, herr⟩ := hinv
  have hlog1 := LogBound_ensure_tensor_exists hlog p
  refine ⟨?_, ?_, ?_⟩
  · rw [rwStep_ta]
    exact LogBound_set_write hlog1 p (le_refl seq)
  · rw [rwStep_rowD]
    exact hclk
  · intro r hr
    rw [rwStep_errs] at hr
    rcases List.mem_append.mp hr with h | h
    · exact herr r h
    · refine spec_conflict_reports_same_stream hclk ?_ h
      intro a ha
      by_cases hc : (acc.ta.ensure_tensor_exists p).get_reads p ≠ []
      · rw [if_pos hc] at ha
        exact LogBound_get_reads hlog1 ha
      · rw [if_neg hc] at ha
        exact LogBound_get_write hlog1 (toList_mem ha)

theorem handle_kernel_launch_props (h : EventHandler) (stream : StreamId)
    (read_only read_write : List DataPtr) (operator : String)
    (tensor_names : List (DataPtr × List String))
    (hlog : LogBound h.seq_num h.tensors_accessed) :
    LogBound
      (h._handle_kernel_launch stream read_only read_write operator tensor_names).2.seq_num
      (h._handle_kernel_launch stream read_only read_write operator tensor_names).2.tensors_accessed ∧
    (∀ r ∈ (h._handle_kernel_launch stream read_only read_write operator tensor_names).1,
      r.current_access.stream ≠ r.previous_access.stream) := by
  have hinv0 : StepInv stream (h.seq_num + 1)
      ⟨[], h.tensors_accessed, h.syncs.update_seq_num stream (h.seq_num + 1)⟩ := by
    refine ⟨LogBound_mono hlog (h.seq_num + 1) (Int.le_add_one (le_refl _)), ?_, ?_⟩
    · show vcGet (rowD (h.syncs.update_seq_num stream (h.seq_num + 1)) stream) stream
        = h.seq_num + 1
      rw [update_seq_num_rowD, vcGet_dset]
      simp
    · intro r hr
      simp at hr
  have hinv2 := foldl_pres
    (fun acc p => rwStep_inv stream (h.seq_num + 1) operator tensor_names acc p)
    read_write _
    (foldl_pres
      (fun acc p => roStep_inv stream (h.seq_num + 1) operator tensor_names acc p)
      read_only _ hinv0)
  exact ⟨hinv2.1, hinv2.2.2⟩

theorem handle_kernel_launch_clock (h : EventHandler) (stream : StreamId)
    (read_only read_write : List DataPtr) (operator : String)
    (tensor_names : List (DataPtr × List String)) :
    vcGet (rowD
      (h._handle_kernel_launch stream read_only read_write operator tensor_names).2.syncs
      stream) stream = h.seq_num + 1 := by
  show vcGet (rowD
    (read_write.foldl (rwStep stream (h.seq_num + 1) operator tensor_names)
      (read_only.foldl (roStep stream (h.seq_num + 1) operator tensor_names)
        ⟨[], h.tensors_accessed,
          h.syncs.update_seq_num stream (h.seq_num + 1)⟩)).syncs stream) stream
    = h.seq_num + 1
  rw [foldl_rowD (fun acc p s => rwStep_rowD stream (h.seq_num + 1) operator tensor_names acc p s),
    foldl_rowD (fun acc p s => roStep_rowD stream (h.seq_num + 1) operator tensor_names acc p s)]
  show vcGet (rowD (h.syncs.update_seq_num stream (h.seq_num + 1)) stream) stream
    = h.seq_num + 1
  rw [update_seq_num_rowD, vcGet_dset]
  simp

theorem runEvent_inv (h : EventHandler) (ev : TraceEvent)
    (hlog : LogBound h.seq_num h.tensors_accessed) :
    LogBound (runEvent h ev).2.seq_num (runEvent h ev).2.tensors_accessed ∧
    ∀ r ∈ (runEvent h ev).1,
      r.current_access.stream ≠ r.previous_access.stream := by
  cases ev with
  | event_creation e => exact ⟨hlog, fun r hr => absurd hr (List.not_mem_nil r)⟩
  | event_deletion e => exact ⟨hlog, fun r hr => absurd hr (List.not_mem_nil r)⟩
  | event_record e s => exact ⟨hlog, fun r hr => absurd hr (List.not_mem_nil r)⟩
  | event_wait e s => exact ⟨hlog, fun r hr => absurd hr (List.not_mem_nil r)⟩
  | stream_creation s => exact ⟨hlog, fun r hr => absurd hr (List.not_mem_nil r)⟩
  | memory_allocation p =>
      exact ⟨LogBound_create_tensor
          (LogBound_ensure_tensor_does_not_exist hlog p) p (some ()),
        fun r hr => absurd hr (List.not_mem_nil r)⟩
  | memory_deallocation p =>
      exact ⟨LogBound_delete_tensor (LogBound_ensure_tensor_exists hlog p) p,
        fun r hr => absurd hr (List.not_mem_nil r)⟩
  | kernel_launch s ro rw op names =>
      exact handle_kernel_launch_props h s ro rw op names hlog

theorem runTrace_inv (evs : List TraceEvent) :
    ∀ (h : EventHandler), LogBound h.seq_num h.tensors_accessed →
      ∀ l ∈ (runTrace h evs).1, ∀ r ∈ l,
        r.current_access.stream ≠ r.previous_access.stream := by
  induction evs with
  | nil =>
      intro h hlog l hl
      simp [runTrace] at hl
  | cons ev rest ih =>
      intro h hlog l hl
      obtain ⟨h1, h2⟩ := runEvent_inv h ev hlog
      have hl' : l = (runEvent h ev).1 ∨ l ∈ (runTrace (runEvent h ev).2 rest).1 := by
        simpa [runTrace] using hl
      rcases hl' with rfl | hmem
      · exact h2
      · exact ih (runEvent h ev).2 h1 l hmem

/-- C2: on a fresh core, no report ever cites two accesses of the same
stream as previous and current; in particular two accesses generated by
launches on the same stream (with any seq-num ordering) are never cited
together. -/
theorem C2_same_stream_never_races (evs : List TraceEvent)
    (l : List UnsynchronizedAccessError)
    (hl : l ∈ (runTrace EventHandler.init evs).1)
    (r : UnsynchronizedAccessError) (hr : r ∈ l) :
    r.current_access.stream ≠ r.previous_access.stream :=
  runTrace_inv evs EventHandler.init
    (fun pe hpe => absurd hpe (List.not_mem_nil pe)) l hl r hr

/-- Witness for C2 at the concrete racing trace: its single report cites
stream 1 against stream 0. -/
theorem C2_same_stream_never_races_witness :
    [raceDemoError] ∈ (runTrace EventHandler.init raceDemoEvents).1 ∧
    raceDemoError ∈ [raceDemoError] ∧
    raceDemoError.current_access.stream ≠ raceDemoError.previous_access.stream :=
  ⟨by decide, by decide,
    C2_same_stream_never_races raceDemoEvents [raceDemoError] (by decide)
      raceDemoError (by decide)⟩

/-- C3: the read-write loop of a launch is the fold of `rwStep`, and one
`rwStep` on buffer `p` checks the fresh WRITE access against each reader
of `p` when the reads-since-last-write list is non-empty, and only
against the optional last writer otherwise — never both — and then
installs the write with `set_write`. -/
theorem C3_write_loop (h : EventHandler) (stream : StreamId)
    (read_only read_write : List DataPtr) (operator : String)
    (tensor_names : List (DataPtr × List String)) (acc : LaunchFold)
    (p : DataPtr) :
    (h._handle_kernel_launch stream read_only read_write operator tensor_names).1 =
      (read_write.foldl (rwStep stream (h.seq_num + 1) operator tensor_names)
        (read_only.foldl (roStep stream (h.seq_num + 1) operator tensor_names)
          ⟨[], h.tensors_accessed,
            h.syncs.update_seq_num stream (h.seq_num + 1)⟩)).errs ∧
    (rwStep stream (h.seq_num + 1) operator tensor_names acc p).errs =
      acc.errs ++ spec_conflict_reports acc.syncs (acc.ta.ensure_tensor_exists p) p
        ⟨AccessType.WRITE, h.seq_num + 1, stream, operator,
          (dlookup tensor_names p).getD [], ()⟩
        (if (acc.ta.ensure_tensor_exists p).get_reads p ≠ [] then
          (acc.ta.ensure_tensor_exists p).get_reads p
        else ((acc.ta.ensure_tensor_exists p).get_write p).toList) ∧
    (rwStep stream (h.seq_num + 1) operator tensor_names acc p).ta =
      (acc.ta.ensure_tensor_exists p).set_write p
        ⟨AccessType.WRITE, h.seq_num + 1, stream, operator,
          (dlookup tensor_names p).getD [], ()⟩ :=
  ⟨rfl, rwStep_errs stream (h.seq_num + 1) operator tensor_names acc p,
    rwStep_ta stream (h.seq_num + 1) operator tensor_names acc p⟩

/-- C7: a kernel-launch handler invocation assigns the fresh seq-num
`h.seq_num + 1` and leaves the launching stream's self-clock equal to it:
`current[s][s] = n` immediately after the launch. -/
theorem C7_bumped_self_clock (h : EventHandler) (stream : StreamId)
    (read_only read_write : List DataPtr) (operator : String)
    (tensor_names : List (DataPtr × List String)) :
    (h._handle_kernel_launch stream read_only read_write operator tensor_names).2.seq_num
      = h.seq_num + 1 ∧
    vcGet (rowD
      (h._handle_kernel_launch stream read_only read_write operator tensor_names).2.syncs
      stream) stream =
      (h._handle_kernel_launch stream read_only read_write operator tensor_names).2.seq_num :=
  ⟨rfl, handle_kernel_launch_clock h stream read_only read_write operator tensor_names⟩

theorem isSome_dset_mono {V : Type} {d : List (Nat × V)} {k' : Nat}
    (v : V) (k : Nat) (h : (dlookup d k').isSome = true) :
    (dlookup (dset d k v) k').isSome = true := by
  rw [dlookup_dset]
  by_cases he : k' = k <;> simp [he, h]

theorem keys_dset {V : Type} {d : List (Nat × V)} {k : Nat} {v : V} {y : Nat}
    (h : y ∈ (dset d k v).map Prod.fst) : y = k ∨ y ∈ d.map Prod.fst := by
  rcases List.mem_map.mp h with ⟨x, hx, hxy⟩
  rcases mem_dset hx with h' | h'
  · left
    rw [← hxy, h']
  · exact Or.inr (List.mem_map.mpr ⟨x, h', hxy⟩)

theorem waitFold_keys {snap row : VectorClock} {y : StreamId}
    (h : y ∈ (snap.foldl waitUpdate row).map Prod.fst) :
    y ∈ row.map Prod.fst ∨ y ∈ snap.map Prod.fst := by
  induction snap generalizing row with
  | nil => exact Or.inl h
  | cons hd tl ih =>
      simp only [List.foldl_cons] at h
      rcases ih h with h' | h'
      · rcases keys_dset h' with he | he
        · exact Or.inr (by simp [he])
        · exact Or.inl he
      · exact Or.inr (by simp [h'])

theorem SyncWF_create_stream {st : StreamSynchronizations} (hwf : SyncWF st)
    (s : StreamId) : SyncWF (st.create_stream s) := by
  unfold StreamSynchronizations.create_stream
  by_cases h : (dlookup st.current_sync_states s).isSome
  · simpa [h] using hwf
  · simp only [h, Bool.false_eq_true, if_false]
    refine ⟨?_, ?_⟩
    · intro pv hpv tv htv
      rcases mem_dset hpv with he | he
      · subst he
        simp at htv
      · exact isSome_dset_mono _ _ (hwf.1 pv he tv htv)
    · intro ev hev tv htv
      exact isSome_dset_mono _ _ (hwf.2 ev hev tv htv)

theorem SyncWF_ensure_stream_exists {st : StreamSynchronizations}
    (hwf : SyncWF st) (s : StreamId) : SyncWF (st.ensure_stream_exists s) := by
  unfold StreamSynchronizations.ensure_stream_exists
  by_cases h : (dlookup st.current_sync_states s).isSome
  · simpa [h] using hwf
  · simpa [h] using SyncWF_create_stream hwf s

theorem SyncWF_ensure_event_exists {st : StreamSynchronizations}
    (hwf : SyncWF st) (e : EventId) : SyncWF (st.ensure_event_exists e) := by
  unfold StreamSynchronizations.ensure_event_exists
  by_cases h : (dlookup st.recorded_sync_states e).isSome
  · simpa [h] using hwf
  · simp only [h, Bool.false_eq_true, if_false]
    refine ⟨?_, ?_⟩
    · intro pv hpv tv htv
      exact hwf.1 pv hpv tv htv
    · intro ev hev tv htv
      rcases mem_dset hev with he | he
      · subst he
        simp at htv
      · exact hwf.2 ev he tv htv

theorem SyncWF_ensure_event_does_not_exist {st : StreamSynchronizations}
    (hwf : SyncWF st) (e : EventId) :
    SyncWF (st.ensure_event_does_not_exist e) := by
  unfold StreamSynchronizations.ensure_event_does_not_exist
  by_cases h : (dlookup st.recorded_sync_states e).isSome
  · simp only [h, if_true]
    exact ⟨fun pv hpv tv htv => hwf.1 pv hpv tv htv,
      fun ev hev tv htv => hwf.2 ev (mem_ddel hev) tv htv⟩
  · simpa [h] using hwf

theorem SyncWF_create_event {st : StreamSynchronizations} (hwf : SyncWF st)
    (e : EventId) : SyncWF (st.create_event e) := by
  have hwf1 := SyncWF_ensure_event_does_not_exist hwf e
  refine ⟨?_, ?_⟩
  · intro pv hpv tv htv
    exact hwf1.1 pv hpv tv htv
  · intro ev hev tv htv
    rcases mem_dset hev with he | he
    · subst he
      simp at htv
    · exact hwf1.2 ev he tv htv

theorem SyncWF_delete_event {st : StreamSynchronizations} (hwf : SyncWF st)
    (e : EventId) : SyncWF (st.delete_event e) := by
  have hwf1 := SyncWF_ensure_event_exists hwf e
  exact ⟨fun pv hpv tv htv => hwf1.1 pv hpv tv htv,
    fun ev hev tv htv => hwf1.2 ev (mem_ddel hev) tv htv⟩

theorem SyncWF_update_seq_num {st : StreamSynchronizations} (hwf : SyncWF st)
    (s : StreamId) (seq : SeqNum) : SyncWF (st.update_seq_num s seq) := by
  have hwf1 := SyncWF_ensure_stream_exists hwf s
  have hself := dlookup_ensure_stream_exists_self st s
  have hcur : (st.update_seq_num s seq).current_sync_states =
      dset (st.ensure_stream_exists s).current_sync_states s
        (dset ((dlookup (st.ensure_stream_exists s).current_sync_states s).getD []) s seq) := rfl
  refine ⟨?_, ?_⟩
  · intro pv hpv tv htv
    rw [hcur]
    rcases mem_dset hpv with he | he
    · subst he
      rcases mem_dset htv with he2 | he2
      · subst he2
        rw [dlookup_dset_self]
        rfl
      · have hrow : ((dlookup (st.ensure_stream_exists s).current_sync_states s).getD [])
            = rowD st s := by
          rw [hself]
          rfl
        rw [hrow] at he2
        have hm : (s, rowD st s) ∈ (st.ensure_stream_exists s).current_sync_states :=
          dlookup_mem hself
        exact isSome_dset_mono _ _ (hwf1.1 (s, rowD st s) hm tv he2)
    · exact isSome_dset_mono _ _ (hwf1.1 pv he tv htv)
  · intro ev hev tv htv
    exact isSome_dset_mono _ _ (hwf1.2 ev hev tv htv)

theorem SyncWF_record_state {st : StreamSynchronizations} (hwf : SyncWF st)
    (e : EventId) (s : StreamId) : SyncWF (st.record_state e s) := by
  have hwf2 := SyncWF_ensure_stream_exists (SyncWF_ensure_event_exists hwf e) s
  refine ⟨?_, ?_⟩
  · intro pv hpv tv htv
    exact hwf2.1 pv hpv tv htv
  · intro ev hev tv htv
    rcases mem_dset hev with he | he
    · subst he
      cases hx : dlookup ((st.ensure_event_exists e).ensure_stream_exists s).current_sync_states s with
      | none =>
          rw [hx] at htv
          simp at htv
      | some row =>
          rw [hx] at htv
          simp only [Option.getD_some] at htv
          exact hwf2.1 (s, row) (dlookup_mem hx) tv htv
    · exact hwf2.2 ev he tv htv

theorem SyncWF_state_wait_for_event {st : StreamSynchronizations}
    (hwf : SyncWF st) (s : StreamId) (e : EventId) :
    SyncWF (st.state_wait_for_event s e) := by
  have hwf2 := SyncWF_ensure_stream_exists (SyncWF_ensure_event_exists hwf e) s
  refine ⟨?_, ?_⟩
  · intro pv hpv tv htv
    rcases mem_dset hpv with he | he
    · subst he
      have hk := waitFold_keys (List.mem_map.mpr ⟨tv, htv, rfl⟩)
      rcases hk with hk | hk
      · rcases List.mem_map.mp hk with ⟨x, hx, hxe⟩
        cases hy : dlookup ((st.ensure_event_exists e).ensure_stream_exists s).current_sync_states s with
        | none =>
            rw [hy] at hx
            simp at hx
        | some row =>
            rw [hy] at hx
            simp only [Option.getD_some] at hx
            have := hwf2.1 (s, row) (dlookup_mem hy) x hx
            rw [hxe] at this
            exact isSome_dset_mono _ _ this
      · rcases List.mem_map.mp hk with ⟨x, hx, hxe⟩
        cases hy : dlookup ((st.ensure_event_exists e).ensure_stream_exists s).recorded_sync_states e with
        | none =>
            rw [hy] at hx
            simp at hx
        | some snap =>
            rw [hy] at hx
            simp only [Option.getD_some] at hx
            have := hwf2.2 (e, snap) (dlookup_mem hy) x hx
            rw [hxe] at this
            exact isSome_dset_mono _ _ this
    · exact isSome_dset_mono _ _ (hwf2.1 pv he tv htv)
  · intro ev hev tv htv
    exact isSome_dset_mono _ _ (hwf2.2 ev hev tv htv)

theorem SyncWF_is_ordered_after {st : StreamSynchronizations} (hwf : SyncWF st)
    (c : StreamId) (n : SeqNum) (o : StreamId) :
    SyncWF (st.is_ordered_after c n o).2 :=
  SyncWF_ensure_stream_exists (SyncWF_ensure_stream_exists hwf c) o

theorem SyncWF_check_conflict {syncs : StreamSynchronizations}
    (hwf : SyncWF syncs) (ta : _TensorsAccessed) (p : DataPtr) (cur : Access)
    (prev? : Option Access) : SyncWF (check_conflict syncs ta p cur prev?).1 := by
  cases prev? with
  | none => exact hwf
  | some prev =>
      show SyncWF (if (syncs.is_ordered_after cur.stream prev.seq_num prev.stream).1 then
          ((syncs.is_ordered_after cur.stream prev.seq_num prev.stream).2, none)
        else ((syncs.is_ordered_after cur.stream prev.seq_num prev.stream).2,
          some (UnsynchronizedAccessError.mk p (ta.get_allocation_stack_trace p)
            cur prev))).1
      by_cases hb : (syncs.is_ordered_after cur.stream prev.seq_num prev.stream).1 <;>
        simp only [hb, Bool.false_eq_true, if_true, if_false] <;>
        exact SyncWF_is_ordered_after hwf cur.stream prev.seq_num prev.stream

theorem rwFold_SyncWF (ta : _TensorsAccessed) (p : DataPtr) (cur : Access) :
    ∀ (prevs : List Access) (syncs : StreamSynchronizations)
      (errs0 : List UnsynchronizedAccessError), SyncWF syncs →
      SyncWF ((prevs.foldl (fun sc prev =>
        let r1 := check_conflict sc.1 ta p cur (some prev)
        (r1.1, sc.2 ++ r1.2.toList)) (syncs, errs0)).1)
  | [], _, _, h => h
  | prev :: tl, syncs, errs0, h =>
      rwFold_SyncWF ta p cur tl (check_conflict syncs ta p cur (some prev)).1
        (errs0 ++ (check_conflict syncs ta p cur (some prev)).2.toList)
        (SyncWF_check_conflict h ta p cur (some prev))

theorem SyncWF_roStep (stream : StreamId) (seq : SeqNum) (operator : String)
    (tensor_names : List (DataPtr × List String)) (acc : LaunchFold)
    (p : DataPtr) (hwf : SyncWF acc.syncs) :
    SyncWF (roStep stream seq operator tensor_names acc p).syncs :=
  SyncWF_check_conflict hwf _ p _ _

theorem SyncWF_rwStep (stream : StreamId) (seq : SeqNum) (operator : String)
    (tensor_names : List (DataPtr × List String)) (acc : LaunchFold)
    (p : DataPtr) (hwf : SyncWF acc.syncs) :
    SyncWF (rwStep stream seq operator tensor_names acc p).syncs := by
  unfold rwStep
  by_cases hw : (acc.ta.ensure_tensor_exists p).were_there_reads_since_last_write p
  · simp only [hw, if_true]
    exact rwFold_SyncWF _ p _ _ acc.syncs [] hwf
  · simp only [hw, Bool.false_eq_true, if_false]
    exact SyncWF_check_conflict hwf _ p _ _

theorem SyncWF_runEvent (h : EventHandler) (ev : TraceEvent)
    (hwf : SyncWF h.syncs) : SyncWF (runEvent h ev).2.syncs := by
  cases ev with
  | event_creation e => exact SyncWF_create_event hwf e
  | event_deletion e => exact SyncWF_delete_event hwf e
  | event_record e s => exact SyncWF_record_state hwf e s
  | event_wait e s => exact SyncWF_state_wait_for_event hwf s e
  | memory_allocation p => exact hwf
  | memory_deallocation p => exact hwf
  | stream_creation s => exact SyncWF_create_stream hwf s
  | kernel_launch s ro rw op names =>
      exact foldl_pres (fun acc p => SyncWF_rwStep s (h.seq_num + 1) op names acc p)
        rw _
        (foldl_pres (fun acc p => SyncWF_roStep s (h.seq_num + 1) op names acc p)
          ro _ (SyncWF_update_seq_num hwf s (h.seq_num + 1)))

/-- The sync-table well-formedness invariant holds in every state a fresh
core can reach, substantiating the hypothesis of the frame theorem for
`is_ordered_after`. -/
theorem SyncWF_reachable (evs : List TraceEvent) :
    SyncWF (runTrace EventHandler.init evs).2.syncs := by
  have hstep : ∀ (h : EventHandler), SyncWF h.syncs →
      SyncWF (runTrace h evs).2.syncs := by
    induction evs with
    | nil => exact fun h hwf => hwf
    | cons ev rest ih =>
        intro h hwf
        exact ih (runEvent h ev).2 (SyncWF_runEvent h ev hwf)
  exact hstep EventHandler.init
    ⟨fun pv hpv => absurd hpv (List.not_mem_nil pv),
      fun ev hev => absurd hev (List.not_mem_nil ev)⟩

theorem dset_keys_nodup {V : Type} {d : List (Nat × V)} (k : Nat) (v : V)
    (h : (d.map Prod.fst).Nodup) : ((dset d k v).map Prod.fst).Nodup := by
  induction d with
  | nil => simp [dset]
  | cons hd tl ih =>
      obtain ⟨a, w⟩ := hd
      simp only [List.map_cons, List.nodup_cons] at h
      by_cases hk : k = a
      · subst hk
        simp [dset, List.nodup_cons, h.1, h.2]
      · simp only [dset, hk, if_false, List.map_cons, List.nodup_cons]
        constructor
        · intro hmem
          rcases keys_dset hmem with he | he
          · exact hk he.symm
          · exact h.1 he
        · exact ih h.2

theorem waitFold_keys_nodup {snap row : VectorClock}
    (h : (row.map Prod.fst).Nodup) :
    ((snap.foldl waitUpdate row).map Prod.fst).Nodup := by
  induction snap generalizing row with
  | nil => exact h
  | cons hd tl ih =>
      simp only [List.foldl_cons]
      exact ih (dset_keys_nodup _ _ h)

theorem waitFold_values {snap row : VectorClock}
    (hrow : ∀ tv ∈ row, (-1 : SeqNum) ≤ tv.2)
    (hsnap : ∀ tn ∈ snap, (-1 : SeqNum) ≤ tn.2) :
    ∀ tv ∈ snap.foldl waitUpdate row, (-1 : SeqNum) ≤ tv.2 := by
  induction snap generalizing row with
  | nil => exact hrow
  | cons hd tl ih =>
      simp only [List.foldl_cons]
      apply ih
      · intro tv htv
        rcases mem_dset htv with he | he
        · subst he
          exact le_trans (hsnap hd (by simp)) (le_max_right _ _)
        · exact hrow tv he
      · intro tn htn
        exact hsnap tn (List.mem_cons_of_mem _ htn)

theorem ClockWF_create_stream {st : StreamSynchronizations} (hwf : ClockWF st)
    (s : StreamId) : ClockWF (st.create_stream s) := by
  unfold StreamSynchronizations.create_stream
  by_cases h : (dlookup st.current_sync_states s).isSome
  · simpa [h] using hwf
  · simp only [h, Bool.false_eq_true, if_false]
    refine ⟨?_, fun ev hev => hwf.2 ev hev⟩
    intro pv hpv
    rcases mem_dset hpv with he | he
    · subst he
      exact ⟨by simp, by simp⟩
    · exact hwf.1 pv he

theorem ClockWF_ensure_stream_exists {st : StreamSynchronizations}
    (hwf : ClockWF st) (s : StreamId) : ClockWF (st.ensure_stream_exists s) := by
  unfold StreamSynchronizations.ensure_stream_exists
  by_cases h : (dlookup st.current_sync_states s).isSome
  · simpa [h] using hwf
  · simpa [h] using ClockWF_create_stream hwf s

theorem ClockWF_ensure_event_exists {st : StreamSynchronizations}
    (hwf : ClockWF st) (e : EventId) : ClockWF (st.ensure_event_exists e) := by
  unfold StreamSynchronizations.ensure_event_exists
  by_cases h : (dlookup st.recorded_sync_states e).isSome
  · simpa [h] using hwf
  · simp only [h, Bool.false_eq_true, if_false]
    refine ⟨fun pv hpv => hwf.1 pv hpv, ?_⟩
    intro ev hev
    rcases mem_dset hev with he | he
    · subst he
      exact ⟨by simp, by simp⟩
    · exact hwf.2 ev he

theorem ClockWF_ensure_event_does_not_exist {st : StreamSynchronizations}
    (hwf : ClockWF st) (e : EventId) :
    ClockWF (st.ensure_event_does_not_exist e) := by
  unfold StreamSynchronizations.ensure_event_does_not_exist
  by_cases h : (dlookup st.recorded_sync_states e).isSome
  · simp only [h, if_true]
    exact ⟨fun pv hpv => hwf.1 pv hpv, fun ev hev => hwf.2 ev (mem_ddel hev)⟩
  · simpa [h] using hwf

theorem ClockWF_create_event {st : StreamSynchronizations} (hwf : ClockWF st)
    (e : EventId) : ClockWF (st.create_event e) := by
  have hwf1 := ClockWF_ensure_event_does_not_exist hwf e
  refine ⟨fun pv hpv => hwf1.1 pv hpv, ?_⟩
  intro ev hev
  rcases mem_dset hev with he | he
  · subst he
    exact ⟨by simp, by simp⟩
  · exact hwf1.2 ev he

theorem ClockWF_delete_event {st : StreamSynchronizations} (hwf : ClockWF st)
    (e : EventId) : ClockWF (st.delete_event e) := by
  have hwf1 := ClockWF_ensure_event_exists hwf e
  exact ⟨fun pv hpv => hwf1.1 pv hpv, fun ev hev => hwf1.2 ev (mem_ddel hev)⟩

theorem ClockWF_update_seq_num {st : StreamSynchronizations} (hwf : ClockWF st)
    (s : StreamId) {seq : SeqNum} (hseq : (-1 : SeqNum) ≤ seq) :
    ClockWF (st.update_seq_num s seq) := by
  have hwf1 := ClockWF_ensure_stream_exists hwf s
  have hself := dlookup_ensure_stream_exists_self st s
  have hrow := hwf1.1 (s, rowD st s) (dlookup_mem hself)
  have hrow0 : ((dlookup (st.ensure_stream_exists s).current_sync_states s).getD [])
      = rowD st s := by
    rw [hself]
    rfl
  refine ⟨?_, fun ev hev => hwf1.2 ev hev⟩
  intro pv hpv
  rcases mem_dset hpv with he | he
  · subst he
    rw [hrow0]
    constructor
    · exact dset_keys_nodup _ _ hrow.1
    · intro tv htv
      rcases mem_dset htv with he2 | he2
      · subst he2
        exact hseq
      · exact hrow.2 tv he2
  · exact hwf1.1 pv he

theorem ClockWF_record_state {st : StreamSynchronizations} (hwf : ClockWF st)
    (e : EventId) (s : StreamId) : ClockWF (st.record_state e s) := by
  have hwf2 := ClockWF_ensure_stream_exists (ClockWF_ensure_event_exists hwf e) s
  refine ⟨fun pv hpv => hwf2.1 pv hpv, ?_⟩
  intro ev hev
  rcases mem_dset hev with he | he
  · subst he
    cases hx : dlookup ((st.ensure_event_exists e).ensure_stream_exists s).current_sync_states s with
    | none => exact ⟨by simp [hx], by simp [hx]⟩
    | some row =>
        have hr := hwf2.1 (s, row) (dlookup_mem hx)
        exact ⟨by simpa [hx] using hr.1, by simpa [hx] using hr.2⟩
  · exact hwf2.2 ev he

theorem ClockWF_state_wait_for_event {st : StreamSynchronizations}
    (hwf : ClockWF st) (s : StreamId) (e : EventId) :
    ClockWF (st.state_wait_for_event s e) := by
  have hwf2 := ClockWF_ensure_stream_exists (ClockWF_ensure_event_exists hwf e) s
  have hrowp : (((dlookup ((st.ensure_event_exists e).ensure_stream_exists s).current_sync_states s).getD []).map Prod.fst).Nodup ∧
      ∀ tv ∈ ((dlookup ((st.ensure_event_exists e).ensure_stream_exists s).current_sync_states s).getD []),
        (-1 : SeqNum) ≤ tv.2 := by
    cases hx : dlookup ((st.ensure_event_exists e).ensure_stream_exists s).current_sync_states s with
    | none => exact ⟨by simp, by simp⟩
    | some row =>
        have hr := hwf2.1 (s, row) (dlookup_mem hx)
        exact ⟨by simpa using hr.1, by simpa using hr.2⟩
  have hsnapp : ∀ tn ∈ ((dlookup ((st.ensure_event_exists e).ensure_stream_exists s).recorded_sync_states e).getD []),
      (-1 : SeqNum) ≤ tn.2 := by
    cases hx : dlookup ((st.ensure_event_exists e).ensure_stream_exists s).recorded_sync_states e with
    | none => simp
    | some snap =>
        have hr := hwf2.2 (e, snap) (dlookup_mem hx)
        simpa using hr.2
  refine ⟨?_, fun ev hev => hwf2.2 ev hev⟩
  intro pv hpv
  rcases mem_dset hpv with he | he
  · subst he
    constructor
    · exact waitFold_keys_nodup hrowp.1
    · exact waitFold_values hrowp.2 hsnapp
  · exact hwf2.1 pv he

theorem ClockWF_is_ordered_after {st : StreamSynchronizations}
    (hwf : ClockWF st) (c : StreamId) (n : SeqNum) (o : StreamId) :
    ClockWF (st.is_ordered_after c n o).2 :=
  ClockWF_ensure_stream_exists (ClockWF_ensure_stream_exists hwf c) o

theorem ClockWF_check_conflict {syncs : StreamSynchronizations}
    (hwf : ClockWF syncs) (ta : _TensorsAccessed) (p : DataPtr) (cur : Access)
    (prev? : Option Access) : ClockWF (check_conflict syncs ta p cur prev?).1 := by
  cases prev? with
  | none => exact hwf
  | some prev =>
      show ClockWF (if (syncs.is_ordered_after cur.stream prev.seq_num prev.stream).1 then
          ((syncs.is_ordered_after cur.stream prev.seq_num prev.stream).2, none)
        else ((syncs.is_ordered_after cur.stream prev.seq_num prev.stream).2,
          some (UnsynchronizedAccessError.mk p (ta.get_allocation_stack_trace p)
            cur prev))).1
      by_cases hb : (syncs.is_ordered_after cur.stream prev.seq_num prev.stream).1 <;>
        simp only [hb, Bool.false_eq_true, if_true, if_false] <;>
        exact ClockWF_is_ordered_after hwf cur.stream prev.seq_num prev.stream

theorem rwFold_ClockWF (ta : _TensorsAccessed) (p : DataPtr) (cur : Access) :
    ∀ (prevs : List Access) (syncs : StreamSynchronizations)
      (errs0 : List UnsynchronizedAccessError), ClockWF syncs →
      ClockWF ((prevs.foldl (fun sc prev =>
        let r1 := check_conflict sc.1 ta p cur (some prev)
        (r1.1, sc.2 ++ r1.2.toList)) (syncs, errs0)).1)
  | [], _, _, h => h
  | prev :: tl, syncs, errs0, h =>
      rwFold_ClockWF ta p cur tl (check_conflict syncs ta p cur (some prev)).1
        (errs0 ++ (check_conflict syncs ta p cur (some prev)).2.toList)
        (ClockWF_check_conflict h ta p cur (some prev))

theorem ClockWF_roStep (stream : StreamId) (seq : SeqNum) (operator : String)
    (tensor_names : List (DataPtr × List String)) (acc : LaunchFold)
    (p : DataPtr) (hwf : ClockWF acc.syncs) :
    ClockWF (roStep stream seq operator tensor_names acc p).syncs :=
  ClockWF_check_conflict hwf _ p _ _

theorem ClockWF_rwStep (stream : StreamId) (seq : SeqNum) (operator : String)
    (tensor_names : List (DataPtr × List String)) (acc : LaunchFold)
    (p : DataPtr) (hwf : ClockWF acc.syncs) :
    ClockWF (rwStep stream seq operator tensor_names acc p).syncs := by
  unfold rwStep
  by_cases hw : (acc.ta.ensure_tensor_exists p).were_there_reads_since_last_write p
  · simp only [hw, if_true]
    exact rwFold_ClockWF _ p _ _ acc.syncs [] hwf
  · simp only [hw, Bool.false_eq_true, if_false]
    exact ClockWF_check_conflict hwf _ p _ _

theorem HandlerWF_runEvent (h : EventHandler) (ev : TraceEvent)
    (hwf : HandlerWF h) : HandlerWF (runEvent h ev).2 := by
  obtain ⟨hc, hs⟩ := hwf
  cases ev with
  | event_creation e => exact ⟨ClockWF_create_event hc e, hs⟩
  | event_deletion e => exact ⟨ClockWF_delete_event hc e, hs⟩
  | event_record e s => exact ⟨ClockWF_record_state hc e s, hs⟩
  | event_wait e s => exact ⟨ClockWF_state_wait_for_event hc s e, hs⟩
  | memory_allocation p => exact ⟨hc, hs⟩
  | memory_deallocation p => exact ⟨hc, hs⟩
  | stream_creation s => exact ⟨ClockWF_create_stream hc s, hs⟩
  | kernel_launch s ro rw op names =>
      have h1 : (0 : SeqNum) ≤ h.seq_num + 1 :=
        le_trans hs (Int.le_add_one (le_refl _))
      refine ⟨?_, h1⟩
      exact foldl_pres
        (fun acc p => ClockWF_rwStep s (h.seq_num + 1) op names acc p)
        rw _
        (foldl_pres
          (fun acc p => ClockWF_roStep s (h.seq_num + 1) op names acc p)
          ro _ (ClockWF_update_seq_num hc s (le_trans (by decide) h1)))

theorem HandlerWF_reachable (evs : List TraceEvent) :
    HandlerWF (runTrace EventHandler.init evs).2 := by
  have hstep : ∀ (h : EventHandler), HandlerWF h → HandlerWF (runTrace h evs).2 := by
    induction evs with
    | nil => exact fun h hwf => hwf
    | cons ev rest ih =>
        intro h hwf
        exact ih (runEvent h ev).2 (HandlerWF_runEvent h ev hwf)
  refine hstep EventHandler.init ⟨⟨?_, ?_⟩, le_refl 0⟩
  · intro pv hpv
    exact absurd hpv (List.not_mem_nil pv)
  · intro ev hev
    exact absurd hev (List.not_mem_nil ev)

/-- Both hypotheses of the `wait` theorem hold in every state a fresh
core can reach, for every stream and event: recorded snapshots have
duplicate-free keys and current rows have values at least `-1`. -/
theorem wait_hypotheses_reachable (evs : List TraceEvent) (s : StreamId)
    (e : EventId) :
    ((((dlookup (runTrace EventHandler.init evs).2.syncs.recorded_sync_states e).getD []).map Prod.fst).Nodup) ∧
    (∀ tv ∈ rowD (runTrace EventHandler.init evs).2.syncs s, (-1 : SeqNum) ≤ tv.2) := by
  have hwf := (HandlerWF_reachable evs).1
  constructor
  · cases hx : dlookup (runTrace EventHandler.init evs).2.syncs.recorded_sync_states e with
    | none => simp
    | some snap =>
        simpa using (hwf.2 (e, snap) (dlookup_mem hx)).1
  · intro tv htv
    rw [rowD] at htv
    cases hx : dlookup (runTrace EventHandler.init evs).2.syncs.current_sync_states s with
    | none =>
        rw [hx] at htv
        simp at htv
    | some row =>
        rw [hx] at htv
        simp only [Option.getD_some] at htv
        exact (hwf.1 (s, row) (dlookup_mem hx)).2 tv htv

end Csan
